import Mathlib

/-!
# Pachyderm Vault plugin: the `login` path, replication states, operation log

A shallow embedding of `src/plugin/vault/pachyderm/login.go`
(`pathAuthLogin`, `generateUserCredentials`) with the collaborators the
handler calls (`b.Config`, `b.SanitizeTTLStr`, `pclient.NewFromAddress`,
`AuthAPIClient.GetAuthToken`) taken as parameters, and every collaborator
call recorded in a trace; of the vendored `helper/consts/replication.go`
(`ReplicationState` and its methods) over naturals below `2 ^ 32`; and of
`src/server/pkg/log/log.go` (`Log`) as the calls it makes on logrus.
-/

namespace Pachyderm

/-! ## Data model -/

/-- Go `time.Duration`: a signed count of nanoseconds. The handler never does
arithmetic on a duration, it only passes the value along. -/
abbrev Duration := Int

/-- Go `error` values that can reach the caller of `pathAuthLogin`.
`ErrInvalidRequest` is the package-level value `logical.ErrInvalidRequest`;
`New text` is a value built by a call `errors.New(text)`;
`Foreign text` is any other error value. Collaborators may return any of them. -/
inductive GoError where
  | ErrInvalidRequest
  | New (text : String)
  | Foreign (text : String)
  deriving DecidableEq, Repr

/-- The text of `err.Error()`. `logical.ErrInvalidRequest` is declared in the
vendored Vault package as `errors.New("invalid request")`. -/
def GoError.Error : GoError → String
  | .ErrInvalidRequest => "invalid request"
  | .New text => text
  | .Foreign text => text

/-- The stored plugin configuration, with the two fields `pathAuthLogin` reads. -/
structure config where
  AdminToken : String
  PachdAddress : String
  deriving DecidableEq, Repr

/-- The three string fields of the `login` path schema, as read with
`d.Get(name).(string)`; a field that was not supplied reads as `""`. -/
structure FieldData where
  username : String
  ttl : String
  max_ttl : String
  deriving DecidableEq, Repr

/-- The part of `pclient.APIClient` that the handler touches: the address the
client was built for and the authentication token set on it. -/
structure APIClient where
  addr : String
  authToken : String
  deriving DecidableEq, Repr

/-- The effect of `client.SetAuthToken(token)`. -/
def APIClient.SetAuthToken (c : APIClient) (token : String) : APIClient :=
  { c with authToken := token }

/-- The message `auth.GetAuthTokenRequest`, with the one field the handler sets. -/
structure GetAuthTokenRequest where
  Subject : String
  deriving DecidableEq, Repr

/-- The message `auth.GetAuthTokenResponse`, with the one field the handler reads. -/
structure GetAuthTokenResponse where
  Token : String
  deriving DecidableEq, Repr

/-- The fields of `logical.LeaseOptions` that the handler sets; every other
field keeps its zero value. -/
structure LeaseOptions where
  TTL : Duration
  Renewable : Bool
  deriving DecidableEq, Repr

/-- The fields of `logical.Auth` that the handler sets. The two Go maps are
kept as key/value lists in the order of the composite literal. -/
structure Auth where
  InternalData : List (String × String)
  Metadata : List (String × String)
  LeaseOptions : LeaseOptions
  deriving DecidableEq, Repr

/-- The value `logical.Response`; the handler sets only `Auth`. -/
structure Response where
  Auth : Option Auth
  deriving DecidableEq, Repr

/-- Lookup of a key in a Go map kept as a key/value list. -/
def mapGet (m : List (String × String)) (key : String) : Option String :=
  (m.find? (fun kv => kv.1 == key)).map Prod.snd

/-! ## Collaborators and the call trace -/

/-- The collaborators of one `pathAuthLogin` call.
* `Config` is the result of `b.Config(ctx, req.Storage)`;
* `SanitizeTTLStr` is `b.SanitizeTTLStr`, returning `(ttl, maxTTL)` or an error;
* `NewFromAddress` is `pclient.NewFromAddress`;
* `GetAuthToken` is `client.AuthAPIClient.GetAuthToken` on the given client.

Each of them returns either a value or a non-nil error. The request context
and `req.Storage` are not modelled apart: what a collaborator does with them
is part of its behaviour, which is arbitrary here. -/
structure backend where
  Config : Except GoError config
  SanitizeTTLStr : String → String → Except GoError (Duration × Duration)
  NewFromAddress : String → Except GoError APIClient
  GetAuthToken : APIClient → GetAuthTokenRequest → Except GoError GetAuthTokenResponse

/-- One collaborator call, with its arguments. -/
inductive Call where
  | Config
  | SanitizeTTLStr (ttlStr maxTTLStr : String)
  | NewFromAddress (addr : String)
  | SetAuthToken (token : String)
  | GetAuthToken (client : APIClient) (req : GetAuthTokenRequest)
  deriving DecidableEq, Repr

/-- Whether a call is the upstream exchange `GetAuthToken`. -/
def Call.isGetAuthToken : Call → Bool
  | .GetAuthToken _ _ => true
  | _ => false

/-- Whether a call is `SanitizeTTLStr`. -/
def Call.isSanitizeTTLStr : Call → Bool
  | .SanitizeTTLStr _ _ => true
  | _ => false

/-- Number of `GetAuthToken` calls in a trace. -/
def exchangeCalls (calls : List Call) : Nat :=
  (calls.filter Call.isGetAuthToken).length

/-- The `SanitizeTTLStr` calls of a trace, in order. -/
def sanitizeCalls (calls : List Call) : List Call :=
  calls.filter Call.isSanitizeTTLStr

/-! ## The code -/

/-- What `generateUserCredentials` returns, `(string, error)`, with the
collaborator calls it made. -/
structure CredResult where
  token : String
  err : Option GoError
  calls : List Call
  deriving DecidableEq, Repr

/-- The function `generateUserCredentials` of login.go, lines 92-109. The Go
function receives `ttl` and does not use it. -/
def generateUserCredentials (b : backend) (pachdAddress adminToken username : String)
    (_ttl : Duration) : CredResult :=
  match b.NewFromAddress pachdAddress with
  | .error err => { token := "", err := some err, calls := [Call.NewFromAddress pachdAddress] }
  | .ok client =>
    let client := client.SetAuthToken adminToken
    let req : GetAuthTokenRequest := { Subject := username }
    match b.GetAuthToken client req with
    | .error err =>
      { token := "", err := some err,
        calls := [Call.NewFromAddress pachdAddress, Call.SetAuthToken adminToken,
                  Call.GetAuthToken client req] }
    | .ok resp =>
      { token := resp.Token, err := none,
        calls := [Call.NewFromAddress pachdAddress, Call.SetAuthToken adminToken,
                  Call.GetAuthToken client req] }

/-- What `pathAuthLogin` returns, `(*logical.Response, error)`, with the
collaborator calls it made, in order. -/
structure LoginResult where
  resp : Option Response
  err : Option GoError
  calls : List Call
  deriving DecidableEq, Repr

/-- The `ttl` string after the default of login.go, lines 39-42. -/
def ttlStringOf (d : FieldData) : String :=
  if d.ttl.length == 0 then "45s" else d.ttl

/-- The `max_ttl` string after the default of login.go, lines 43-46. -/
def maxTTLStringOf (d : FieldData) : String :=
  if d.max_ttl.length == 0 then "2h" else d.max_ttl

/-- The function `pathAuthLogin` of login.go, lines 34-87. -/
def pathAuthLogin (b : backend) (d : FieldData) : LoginResult :=
  let username := d.username
  if username.length == 0 then
    { resp := none, err := some GoError.ErrInvalidRequest, calls := [] }
  else
    let ttlString := ttlStringOf d
    let maxTTLString := maxTTLStringOf d
    match b.Config with
    | .error err => { resp := none, err := some err, calls := [Call.Config] }
    | .ok config =>
      if config.AdminToken.length == 0 then
        { resp := none, err := some (GoError.New "plugin is missing admin_token"),
          calls := [Call.Config] }
      else if config.PachdAddress.length == 0 then
        { resp := none, err := some (GoError.New "plugin is missing pachd_address"),
          calls := [Call.Config] }
      else
        match b.SanitizeTTLStr ttlString maxTTLString with
        | .error err =>
          { resp := none, err := some err,
            calls := [Call.Config, Call.SanitizeTTLStr ttlString maxTTLString] }
        | .ok (ttl, _) =>
          let cred := generateUserCredentials b config.PachdAddress config.AdminToken username ttl
          let calls := [Call.Config, Call.SanitizeTTLStr ttlString maxTTLString] ++ cred.calls
          match cred.err with
          | some err => { resp := none, err := some err, calls := calls }
          | none =>
            let userToken := cred.token
            { resp := some
                { Auth := some
                    { InternalData :=
                        [("user_token", userToken), ("ttl", ttlString), ("max_ttl", maxTTLString)],
                      Metadata :=
                        [("user_token", userToken), ("pachd_address", config.PachdAddress)],
                      LeaseOptions := { TTL := ttl, Renewable := true } } },
              err := none, calls := calls }

/-! ## The paths through the handler -/

/-- The eight paths through `pathAuthLogin`, each with the conditions under
which it is taken and the value returned on it. -/
inductive LoginPath (b : backend) (d : FieldData) : LoginResult → Prop where
  | emptyUsername (hu : d.username = "") :
      LoginPath b d { resp := none, err := some GoError.ErrInvalidRequest, calls := [] }
  | configError (e : GoError) (hu : d.username ≠ "") (hc : b.Config = .error e) :
      LoginPath b d { resp := none, err := some e, calls := [Call.Config] }
  | missingAdminToken (cfg : config) (hu : d.username ≠ "") (hc : b.Config = .ok cfg)
      (ha : cfg.AdminToken = "") :
      LoginPath b d { resp := none, err := some (GoError.New "plugin is missing admin_token"),
                      calls := [Call.Config] }
  | missingPachdAddress (cfg : config) (hu : d.username ≠ "") (hc : b.Config = .ok cfg)
      (ha : cfg.AdminToken ≠ "") (hp : cfg.PachdAddress = "") :
      LoginPath b d { resp := none, err := some (GoError.New "plugin is missing pachd_address"),
                      calls := [Call.Config] }
  | ttlError (cfg : config) (e : GoError) (hu : d.username ≠ "") (hc : b.Config = .ok cfg)
      (ha : cfg.AdminToken ≠ "") (hp : cfg.PachdAddress ≠ "")
      (hs : b.SanitizeTTLStr (ttlStringOf d) (maxTTLStringOf d) = .error e) :
      LoginPath b d { resp := none, err := some e,
                      calls := [Call.Config, Call.SanitizeTTLStr (ttlStringOf d) (maxTTLStringOf d)] }
  | clientError (cfg : config) (ttl maxTTL : Duration) (e : GoError) (hu : d.username ≠ "")
      (hc : b.Config = .ok cfg) (ha : cfg.AdminToken ≠ "") (hp : cfg.PachdAddress ≠ "")
      (hs : b.SanitizeTTLStr (ttlStringOf d) (maxTTLStringOf d) = .ok (ttl, maxTTL))
      (hn : b.NewFromAddress cfg.PachdAddress = .error e) :
      LoginPath b d { resp := none, err := some e,
                      calls := [Call.Config, Call.SanitizeTTLStr (ttlStringOf d) (maxTTLStringOf d),
                                Call.NewFromAddress cfg.PachdAddress] }
  | exchangeError (cfg : config) (ttl maxTTL : Duration) (client : APIClient) (e : GoError)
      (hu : d.username ≠ "")
      (hc : b.Config = .ok cfg) (ha : cfg.AdminToken ≠ "") (hp : cfg.PachdAddress ≠ "")
      (hs : b.SanitizeTTLStr (ttlStringOf d) (maxTTLStringOf d) = .ok (ttl, maxTTL))
      (hn : b.NewFromAddress cfg.PachdAddress = .ok client)
      (hg : b.GetAuthToken (client.SetAuthToken cfg.AdminToken) { Subject := d.username }
              = .error e) :
      LoginPath b d { resp := none, err := some e,
                      calls := [Call.Config, Call.SanitizeTTLStr (ttlStringOf d) (maxTTLStringOf d),
                                Call.NewFromAddress cfg.PachdAddress,
                                Call.SetAuthToken cfg.AdminToken,
                                Call.GetAuthToken (client.SetAuthToken cfg.AdminToken)
                                  { Subject := d.username }] }
  | issued (cfg : config) (ttl maxTTL : Duration) (client : APIClient)
      (tok : GetAuthTokenResponse) (hu : d.username ≠ "")
      (hc : b.Config = .ok cfg) (ha : cfg.AdminToken ≠ "") (hp : cfg.PachdAddress ≠ "")
      (hs : b.SanitizeTTLStr (ttlStringOf d) (maxTTLStringOf d) = .ok (ttl, maxTTL))
      (hn : b.NewFromAddress cfg.PachdAddress = .ok client)
      (hg : b.GetAuthToken (client.SetAuthToken cfg.AdminToken) { Subject := d.username }
              = .ok tok) :
      LoginPath b d
        { resp := some
            { Auth := some
                { InternalData :=
                    [("user_token", tok.Token), ("ttl", ttlStringOf d),
                     ("max_ttl", maxTTLStringOf d)],
                  Metadata := [("user_token", tok.Token), ("pachd_address", cfg.PachdAddress)],
                  LeaseOptions := { TTL := ttl, Renewable := true } } },
          err := none,
          calls := [Call.Config, Call.SanitizeTTLStr (ttlStringOf d) (maxTTLStringOf d),
                    Call.NewFromAddress cfg.PachdAddress,
                    Call.SetAuthToken cfg.AdminToken,
                    Call.GetAuthToken (client.SetAuthToken cfg.AdminToken)
                      { Subject := d.username }] }

/-! ## Concrete collaborators -/

/-- A TTL policy that accepts the default pair `("45s", "2h")`, returning
45 seconds and 2 hours in nanoseconds, and rejects every other pair. -/
def defaultOnlySanitizer (t m : String) : Except GoError (Duration × Duration) :=
  if t = "45s" ∧ m = "2h" then .ok (45000000000, 7200000000000)
  else .error (GoError.Foreign "invalid ttl")

/-- A complete configuration. -/
def goodConfig : config := { AdminToken := "admin-token", PachdAddress := "pachd:650" }

/-- A backend with a complete configuration and an upstream that answers
every exchange with the token `"tok-123"`. -/
def stubBackend : backend :=
  { Config := .ok goodConfig,
    SanitizeTTLStr := defaultOnlySanitizer,
    NewFromAddress := fun a => .ok { addr := a, authToken := "" },
    GetAuthToken := fun _ _ => .ok { Token := "tok-123" } }

/-- The request of scenario A: username `alice`, no `ttl`, no `max_ttl`. -/
def aliceRequest : FieldData := { username := "alice", ttl := "", max_ttl := "" }

/-- A backend whose stored configuration has no admin token. -/
def noAdminTokenBackend : backend :=
  { stubBackend with Config := .ok { AdminToken := "", PachdAddress := "pachd:650" } }

/-- A backend for which no client can be built: `pclient.NewFromAddress`
fails for every address. -/
def unreachableBackend : backend :=
  { stubBackend with NewFromAddress := fun _ => .error (GoError.Foreign "connection refused") }

/-- A backend whose upstream rejects every exchange. -/
def rejectingBackend : backend :=
  { stubBackend with GetAuthToken := fun _ _ => .error (GoError.Foreign "permission denied") }

/-- The response of scenario A: token `"tok-123"`, the default TTL strings,
a lease of 45 seconds, renewable. -/
def aliceResponse : Response :=
  { Auth := some
      { InternalData := [("user_token", "tok-123"), ("ttl", "45s"), ("max_ttl", "2h")],
        Metadata := [("user_token", "tok-123"), ("pachd_address", "pachd:650")],
        LeaseOptions := { TTL := 45000000000, Renewable := true } } }

/-- The backend `b` with the `maxTTL` output of its TTL sanitizer replaced by
`f maxTTL`; the `ttl` output and the errors are as in `b`. -/
def backend.mapMaxTTL (b : backend) (f : Duration → Duration) : backend :=
  { b with SanitizeTTLStr := fun t m => (b.SanitizeTTLStr t m).map (fun p => (p.1, f p.2)) }

/-- A TTL policy that accepts `("45s", "2h")` and `("45s", "1h")`, with the
same `ttl` of 45 seconds and a `maxTTL` of two hours and of one hour. -/
def twoCeilingSanitizer (t m : String) : Except GoError (Duration × Duration) :=
  if t = "45s" ∧ m = "2h" then .ok (45000000000, 7200000000000)
  else if t = "45s" ∧ m = "1h" then .ok (45000000000, 3600000000000)
  else .error (GoError.Foreign "invalid ttl")

/-- The stub backend with the TTL policy `twoCeilingSanitizer`. -/
def twoCeilingBackend : backend :=
  { stubBackend with SanitizeTTLStr := twoCeilingSanitizer }

/-- The request of `alice` with `max_ttl` set to one hour. -/
def aliceOneHourRequest : FieldData := { username := "alice", ttl := "", max_ttl := "1h" }

/-- A backend whose stored configuration has neither field set and whose TTL
policy rejects every pair of strings. -/
def brokenBackend : backend :=
  { stubBackend with
    Config := .ok { AdminToken := "", PachdAddress := "" },
    SanitizeTTLStr := fun _ _ => .error (GoError.Foreign "invalid ttl") }

/-- A request with an empty username and TTL strings that are no durations. -/
def anonymousRequest : FieldData := { username := "", ttl := "soon", max_ttl := "later" }

/-- A request of `alice` with TTL strings that are no durations. -/
def aliceBadTTLRequest : FieldData := { username := "alice", ttl := "soon", max_ttl := "later" }

/-- A request of `alice` with a `ttl` and no `max_ttl`. -/
def aliceTenSecondsRequest : FieldData := { username := "alice", ttl := "10s", max_ttl := "" }

/-- A TTL policy that parses a signed duration and a zero `max_ttl` and caps
nothing, with the values `framework.Backend.SanitizeTTLStr` of the vendored
Vault package returns under a system ceiling above two hours: `("-5s", "2h")`
gives minus five seconds and two hours, `("45s", "0")` gives 45 seconds and a
`maxTTL` of zero, `("45s", "2h")` gives 45 seconds and two hours. -/
def signedSanitizer (t m : String) : Except GoError (Duration × Duration) :=
  if t = "-5s" ∧ m = "2h" then .ok (-5000000000, 7200000000000)
  else if t = "45s" ∧ m = "0" then .ok (45000000000, 0)
  else if t = "45s" ∧ m = "2h" then .ok (45000000000, 7200000000000)
  else .error (GoError.Foreign "invalid ttl")

/-- The stub backend with the TTL policy `signedSanitizer`. -/
def signedBackend : backend :=
  { stubBackend with SanitizeTTLStr := signedSanitizer }

/-- The request of `alice` with a `ttl` of minus five seconds. -/
def aliceNegativeTTLRequest : FieldData := { username := "alice", ttl := "-5s", max_ttl := "" }

/-- The request of `alice` with a `max_ttl` of zero. -/
def aliceZeroMaxTTLRequest : FieldData := { username := "alice", ttl := "", max_ttl := "0" }

/-- A backend whose stored configuration cannot be read. -/
def unreadableConfigBackend : backend :=
  { stubBackend with Config := .error (GoError.Foreign "storage unavailable") }

/-- The backend `b` with the stored configuration `cfg`. -/
def backend.withConfig (b : backend) (cfg : config) : backend :=
  { b with Config := .ok cfg }

/-- A call with the authentication token blanked in the two calls that carry
one, `SetAuthToken` and `GetAuthToken` (in its client). -/
def Call.eraseAuthToken : Call → Call
  | .SetAuthToken _ => .SetAuthToken ""
  | .GetAuthToken client req => .GetAuthToken (client.SetAuthToken "") req
  | c => c

/-! ## Replication states: `vault/helper/consts/replication.go` -/

/-- Go `type ReplicationState uint32`: a value is a natural number below
`2 ^ 32`. -/
abbrev ReplicationState := Nat

/-- The mask of a `uint32` with every bit set, the operand of Go's unary `^`. -/
def uint32Max : Nat := 0xFFFFFFFF

/-- Second constant of the block, `iota = 1`, implicit repetition of `= iota`. -/
def OldReplicationPrimary : ReplicationState := 1

/-- Third constant of the block, `iota = 2`. -/
def OldReplicationSecondary : ReplicationState := 2

/-- Fourth constant of the block, `iota = 3`. -/
def OldReplicationBootstrapping : ReplicationState := 3

/-- Fifth constant of the block (`iota = 4`), declared `= 0`. -/
def ReplicationUnknown : ReplicationState := 0

/-- Sixth constant of the block, declared `= 1 << iota` with `iota = 5`. -/
def ReplicationPerformancePrimary : ReplicationState := 1 <<< 5

/-- Seventh constant, `1 << iota` with `iota = 6`. -/
def ReplicationPerformanceSecondary : ReplicationState := 1 <<< 6

/-- Eighth constant, `1 << iota` with `iota = 7`. -/
def OldSplitReplicationBootstrapping : ReplicationState := 1 <<< 7

/-- Ninth constant, `1 << iota` with `iota = 8`. -/
def ReplicationDRPrimary : ReplicationState := 1 <<< 8

/-- Tenth constant, `1 << iota` with `iota = 9`. -/
def ReplicationDRSecondary : ReplicationState := 1 <<< 9

/-- Eleventh constant, `1 << iota` with `iota = 10`. -/
def ReplicationPerformanceBootstrapping : ReplicationState := 1 <<< 10

/-- Twelfth constant, `1 << iota` with `iota = 11`. -/
def ReplicationDRBootstrapping : ReplicationState := 1 <<< 11

/-- Thirteenth constant, `1 << iota` with `iota = 12`. -/
def ReplicationPerformanceDisabled : ReplicationState := 1 <<< 12

/-- Fourteenth constant, `1 << iota` with `iota = 13`. -/
def ReplicationDRDisabled : ReplicationState := 1 <<< 13

/-- The method `string` of replication.go, lines 23-44: a `switch` on the
value, first matching case first. -/
def ReplicationState.string (r : ReplicationState) : String :=
  if r = ReplicationPerformanceSecondary then "secondary"
  else if r = ReplicationPerformancePrimary then "primary"
  else if r = ReplicationPerformanceBootstrapping then "bootstrapping"
  else if r = ReplicationPerformanceDisabled then "disabled"
  else if r = ReplicationDRPrimary then "primary"
  else if r = ReplicationDRSecondary then "secondary"
  else if r = ReplicationDRBootstrapping then "bootstrapping"
  else if r = ReplicationDRDisabled then "disabled"
  else "unknown"

/-- The method `HasState` of replication.go, line 76: `r&flag != 0`. -/
def ReplicationState.HasState (r flag : ReplicationState) : Bool :=
  r &&& flag != 0

/-- The method `AddState` of replication.go, line 77: the value of `*r` after
`*r |= flag`. -/
def ReplicationState.AddState (r flag : ReplicationState) : ReplicationState :=
  r ||| flag

/-- The method `ClearState` of replication.go, line 78: the value of `*r` after
`*r &= ^flag`, where `^flag` on a `uint32` is `flag` xor the all-ones mask. -/
def ReplicationState.ClearState (r flag : ReplicationState) : ReplicationState :=
  r &&& (flag ^^^ uint32Max)

/-- The method `ToggleState` of replication.go, line 79: the value of `*r`
after `*r ^= flag`. -/
def ReplicationState.ToggleState (r flag : ReplicationState) : ReplicationState :=
  r ^^^ flag

/-- The method `GetDRString` of replication.go, lines 46-59. -/
def ReplicationState.GetDRString (r : ReplicationState) : String :=
  if ReplicationState.HasState r ReplicationDRBootstrapping then
    ReplicationState.string ReplicationDRBootstrapping
  else if ReplicationState.HasState r ReplicationDRPrimary then
    ReplicationState.string ReplicationDRPrimary
  else if ReplicationState.HasState r ReplicationDRSecondary then
    ReplicationState.string ReplicationDRSecondary
  else if ReplicationState.HasState r ReplicationDRDisabled then
    ReplicationState.string ReplicationDRDisabled
  else "unknown"

/-- The method `GetPerformanceString` of replication.go, lines 61-74. -/
def ReplicationState.GetPerformanceString (r : ReplicationState) : String :=
  if ReplicationState.HasState r ReplicationPerformanceBootstrapping then
    ReplicationState.string ReplicationPerformanceBootstrapping
  else if ReplicationState.HasState r ReplicationPerformancePrimary then
    ReplicationState.string ReplicationPerformancePrimary
  else if ReplicationState.HasState r ReplicationPerformanceSecondary then
    ReplicationState.string ReplicationPerformanceSecondary
  else if ReplicationState.HasState r ReplicationPerformanceDisabled then
    ReplicationState.string ReplicationPerformanceDisabled
  else "unknown"

/-- The four disaster-recovery flags. -/
def drFlags : List ReplicationState :=
  [ReplicationDRPrimary, ReplicationDRSecondary, ReplicationDRBootstrapping,
   ReplicationDRDisabled]

/-- The four performance flags. -/
def performanceFlags : List ReplicationState :=
  [ReplicationPerformancePrimary, ReplicationPerformanceSecondary,
   ReplicationPerformanceBootstrapping, ReplicationPerformanceDisabled]

/-- The four legacy values, whose names start with `Old`. -/
def legacyValues : List ReplicationState :=
  [OldReplicationPrimary, OldReplicationSecondary, OldReplicationBootstrapping,
   OldSplitReplicationBootstrapping]

/-- The nine constants declared after `ReplicationUnknown`, in source order. -/
def flagsAfterUnknown : List ReplicationState :=
  [ReplicationPerformancePrimary, ReplicationPerformanceSecondary,
   OldSplitReplicationBootstrapping, ReplicationDRPrimary, ReplicationDRSecondary,
   ReplicationPerformanceBootstrapping, ReplicationDRBootstrapping,
   ReplicationPerformanceDisabled, ReplicationDRDisabled]

/-! ## Operation logging: `src/server/pkg/log/log.go` -/

/-- A value placed in `logrus.Fields`, tagged with the Go type of the
expression it comes from. `V` stands for the values passed as `interface{}`
for the request and the response. -/
inductive LogValue (V : Type) where
  | string (s : String)
  | interface (v : V)
  | error (err : Option GoError)
  | duration (d : Duration)

/-- The two logrus levels at which `Log` emits. -/
inductive Level where
  | ErrorLevel
  | InfoLevel
  deriving DecidableEq, Repr

/-- The method that `Log` calls on the entry returned by `WithFields`:
`entry.Error(err)` or `entry.Info()`. -/
inductive EntryCall where
  | Error (err : GoError)
  | Info
  deriving DecidableEq, Repr

/-- The level of a call: `Entry.Error` logs at `ErrorLevel`, `Entry.Info` at
`InfoLevel`. -/
def EntryCall.Level : EntryCall → Level
  | .Error _ => Level.ErrorLevel
  | .Info => Level.InfoLevel

/-- The struct `logger`: a logrus entry, kept as the fields it carries. -/
structure logger (V : Type) where
  Data : List (String × LogValue V)

/-- The function `NewLogger` of log.go, lines 21-28: an entry with the one
field `service`. -/
def NewLogger (V : Type) (service : String) : logger V :=
  { Data := [("service", LogValue.string service)] }

/-- The call `strings.Split(s, ".")` on the characters of `s`: the pieces
between dots, never an empty list. -/
def splitDots : List Char → List (List Char)
  | [] => [[]]
  | c :: cs =>
    if c = '.' then [] :: splitDots cs
    else
      match splitDots cs with
      | [] => [[c]]
      | p :: ps => (c :: p) :: ps

/-- What one call of `Log` does with logrus: the entry it calls `WithFields`
on, the fields it passes, and the method it calls on the result. -/
structure LogEffect (V : Type) where
  receiver : logger V
  fields : List (String × LogValue V)
  call : EntryCall

/-- The method `Log` of log.go, lines 30-52. `callerName` is the string
`runtime.FuncForPC(pc[0]).Name()`, the name of the function found on the call
stack. The result is `none` when `split[len(split)-1]` is out of range. -/
def logger.Log {V : Type} (l : logger V) (callerName : String) (request response : V)
    (err : Option GoError) (duration : Duration) : Option (LogEffect V) :=
  let split := splitDots callerName.data
  match split.getLast? with
  | none => none
  | some last =>
    let method := String.mk last
    let fields : List (String × LogValue V) :=
      [("method", LogValue.string method),
       ("request", LogValue.interface request),
       ("response", LogValue.interface response),
       ("error", LogValue.error err),
       ("duration", LogValue.duration duration)]
    match err with
    | some e => some { receiver := l, fields := fields, call := EntryCall.Error e }
    | none => some { receiver := l, fields := fields, call := EntryCall.Info }

/-- The name of a method of an API server, as the Go runtime reports it. -/
def createRepoName : String :=
  "github.com/pachyderm/pachyderm/src/server/pfs/server.(*apiServer).CreateRepo"

/-! ## Basic facts -/

theorem length_beq_zero (s : String) : (s.length == 0) = true ↔ s = "" := by
  constructor
  · intro h
    have h0 : s.length = 0 := by simpa using h
    have h1 : s.data = [] := List.length_eq_zero.mp h0
    exact String.ext h1
  · rintro rfl
    rfl

theorem ttlStringOf_eq (d : FieldData) :
    ttlStringOf d = if d.ttl = "" then "45s" else d.ttl := by
  unfold ttlStringOf
  simp only [length_beq_zero]

theorem maxTTLStringOf_eq (d : FieldData) :
    maxTTLStringOf d = if d.max_ttl = "" then "2h" else d.max_ttl := by
  unfold maxTTLStringOf
  simp only [length_beq_zero]

theorem pathAuthLogin_path (b : backend) (d : FieldData) : LoginPath b d (pathAuthLogin b d) := by
  unfold pathAuthLogin
  by_cases hu : d.username = ""
  · simp only [(length_beq_zero _).mpr hu, if_true]
    exact .emptyUsername hu
  · have hu' : ¬ (d.username.length == 0) = true := fun h => hu ((length_beq_zero _).mp h)
    simp only [hu', if_false]
    cases hc : b.Config with
    | error e => exact .configError e hu hc
    | ok cfg =>
      simp only
      by_cases ha : cfg.AdminToken = ""
      · simp only [(length_beq_zero _).mpr ha, if_true]
        exact .missingAdminToken cfg hu hc ha
      · have ha' : ¬ (cfg.AdminToken.length == 0) = true := fun h => ha ((length_beq_zero _).mp h)
        simp only [ha', if_false]
        by_cases hp : cfg.PachdAddress = ""
        · simp only [(length_beq_zero _).mpr hp, if_true]
          exact .missingPachdAddress cfg hu hc ha hp
        · have hp' : ¬ (cfg.PachdAddress.length == 0) = true :=
            fun h => hp ((length_beq_zero _).mp h)
          simp only [hp', if_false]
          cases hs : b.SanitizeTTLStr (ttlStringOf d) (maxTTLStringOf d) with
          | error e => exact .ttlError cfg e hu hc ha hp hs
          | ok p =>
            obtain ⟨ttl, maxTTL⟩ := p
            simp only
            cases hn : b.NewFromAddress cfg.PachdAddress with
            | error e =>
              simp only [generateUserCredentials, hn]
              exact .clientError cfg ttl maxTTL e hu hc ha hp hs hn
            | ok client =>
              cases hg : b.GetAuthToken (client.SetAuthToken cfg.AdminToken)
                  { Subject := d.username } with
              | error e =>
                simp only [generateUserCredentials, hn, hg]
                exact .exchangeError cfg ttl maxTTL client e hu hc ha hp hs hn hg
              | ok tok =>
                simp only [generateUserCredentials, hn, hg]
                exact .issued cfg ttl maxTTL client tok hu hc ha hp hs hn hg

/-! ## Rejections before any exchange -/

/-- C1: for every login request whose username is the empty string, whatever
the ttl and max_ttl strings, the stored config and the behaviour of the TTL
sanitizer and of the upstream, `pathAuthLogin` returns no response and the
error `logical.ErrInvalidRequest`, and makes no collaborator call at all, in
particular no `GetAuthToken` call. -/
theorem empty_username_is_invalid_request (b : backend) (d : FieldData)
    (hu : d.username = "") :
    (pathAuthLogin b d).resp = none ∧
    (pathAuthLogin b d).err = some GoError.ErrInvalidRequest ∧
    (pathAuthLogin b d).calls = [] ∧
    exchangeCalls (pathAuthLogin b d).calls = 0 := by
  have h := pathAuthLogin_path b d
  generalize pathAuthLogin b d = r at h
  cases h with
  | emptyUsername _ => exact ⟨rfl, rfl, rfl, rfl⟩
  | _ => contradiction

/-- Witness of C1 at the request with all three fields empty. -/
theorem empty_username_is_invalid_request_witness :
    ({ username := "", ttl := "", max_ttl := "" } : FieldData).username = "" ∧
    (pathAuthLogin stubBackend { username := "", ttl := "", max_ttl := "" }).resp = none ∧
    (pathAuthLogin stubBackend { username := "", ttl := "", max_ttl := "" }).err
      = some GoError.ErrInvalidRequest ∧
    (pathAuthLogin stubBackend { username := "", ttl := "", max_ttl := "" }).calls = [] ∧
    exchangeCalls (pathAuthLogin stubBackend { username := "", ttl := "", max_ttl := "" }).calls
      = 0 :=
  ⟨rfl, empty_username_is_invalid_request stubBackend _ rfl⟩

/-- C2: for every request with a non-empty username whose config read
succeeds, if the admin token or the pachd address of the config is empty then
`pathAuthLogin` returns no response and the error built by
`errors.New("plugin is missing admin_token")` when the admin token is empty,
otherwise `errors.New("plugin is missing pachd_address")`; that error is not
`logical.ErrInvalidRequest`, neither as a value nor by its text; and no
`GetAuthToken` call is made. -/
theorem incomplete_config_is_misconfiguration (b : backend) (d : FieldData) (cfg : config)
    (hu : d.username ≠ "") (hc : b.Config = .ok cfg)
    (hm : cfg.AdminToken = "" ∨ cfg.PachdAddress = "") :
    (pathAuthLogin b d).resp = none ∧
    (pathAuthLogin b d).err =
      some (if cfg.AdminToken = "" then GoError.New "plugin is missing admin_token"
            else GoError.New "plugin is missing pachd_address") ∧
    (pathAuthLogin b d).err ≠ some GoError.ErrInvalidRequest ∧
    (∀ e, (pathAuthLogin b d).err = some e → e.Error ≠ GoError.ErrInvalidRequest.Error) ∧
    exchangeCalls (pathAuthLogin b d).calls = 0 := by
  have h := pathAuthLogin_path b d
  generalize pathAuthLogin b d = r at h
  cases h with
  | emptyUsername hu' => exact absurd hu' hu
  | configError e _ hc' => rw [hc] at hc'; cases hc'
  | missingAdminToken cfg' _ hc' ha =>
    rw [hc] at hc'; cases hc'
    refine ⟨rfl, by simp [ha], by simp, ?_, rfl⟩
    intro e he
    cases he
    decide
  | missingPachdAddress cfg' _ hc' ha hp =>
    rw [hc] at hc'; cases hc'
    refine ⟨rfl, by simp [ha], by simp, ?_, rfl⟩
    intro e he
    cases he
    decide
  | ttlError cfg' e _ hc' ha hp _ =>
    rw [hc] at hc'; cases hc'
    rcases hm with h | h
    · exact absurd h ha
    · exact absurd h hp
  | clientError cfg' _ _ e _ hc' ha hp _ _ =>
    rw [hc] at hc'; cases hc'
    rcases hm with h | h
    · exact absurd h ha
    · exact absurd h hp
  | exchangeError cfg' _ _ _ e _ hc' ha hp _ _ _ =>
    rw [hc] at hc'; cases hc'
    rcases hm with h | h
    · exact absurd h ha
    · exact absurd h hp
  | issued cfg' _ _ _ _ _ hc' ha hp _ _ _ =>
    rw [hc] at hc'; cases hc'
    rcases hm with h | h
    · exact absurd h ha
    · exact absurd h hp

/-- Witness of C2: username `alice` against a config with an empty admin token. -/
theorem incomplete_config_is_misconfiguration_witness :
    aliceRequest.username ≠ "" ∧
    (pathAuthLogin noAdminTokenBackend aliceRequest).resp = none ∧
    (pathAuthLogin noAdminTokenBackend aliceRequest).err
      = some (GoError.New "plugin is missing admin_token") ∧
    (pathAuthLogin noAdminTokenBackend aliceRequest).err ≠ some GoError.ErrInvalidRequest ∧
    (∀ e, (pathAuthLogin noAdminTokenBackend aliceRequest).err = some e →
      e.Error ≠ GoError.ErrInvalidRequest.Error) ∧
    exchangeCalls (pathAuthLogin noAdminTokenBackend aliceRequest).calls = 0 :=
  ⟨by decide,
   incomplete_config_is_misconfiguration noAdminTokenBackend aliceRequest
     { AdminToken := "", PachdAddress := "pachd:650" } (by decide) rfl (Or.inl rfl)⟩

/-! ## The number of exchange calls -/

/-- C3 fails as stated: for the request of `alice` with a complete config and
a TTL pair the sanitizer accepts, a backend for which `pclient.NewFromAddress`
fails makes `pathAuthLogin` return without any `GetAuthToken` call, not one. -/
theorem valid_request_without_exchange_call :
    aliceRequest.username ≠ "" ∧
    unreachableBackend.Config = .ok goodConfig ∧
    goodConfig.AdminToken ≠ "" ∧ goodConfig.PachdAddress ≠ "" ∧
    unreachableBackend.SanitizeTTLStr (ttlStringOf aliceRequest) (maxTTLStringOf aliceRequest)
      = .ok (45000000000, 7200000000000) ∧
    exchangeCalls (pathAuthLogin unreachableBackend aliceRequest).calls = 0 ∧
    exchangeCalls (pathAuthLogin unreachableBackend aliceRequest).calls ≠ 1 := by
  refine ⟨by decide, rfl, by decide, by decide, rfl, by decide, by decide⟩

/-- C3 as amended: for every valid request (non-empty username, config with
non-empty admin token and pachd address, `SanitizeTTLStr` succeeds on the
defaulted strings), if `pclient.NewFromAddress` builds a client then
`GetAuthToken` is invoked exactly once, on that client carrying the admin
token and with the username as subject, whether the call succeeds or fails;
if `pclient.NewFromAddress` fails it is invoked zero times; in no case is it
invoked a second time. -/
theorem valid_request_exchange_calls (b : backend) (d : FieldData) (cfg : config)
    (ttl maxTTL : Duration)
    (hu : d.username ≠ "") (hc : b.Config = .ok cfg)
    (ha : cfg.AdminToken ≠ "") (hp : cfg.PachdAddress ≠ "")
    (hs : b.SanitizeTTLStr (ttlStringOf d) (maxTTLStringOf d) = .ok (ttl, maxTTL)) :
    (∀ client, b.NewFromAddress cfg.PachdAddress = .ok client →
      (pathAuthLogin b d).calls.filter Call.isGetAuthToken
        = [Call.GetAuthToken (client.SetAuthToken cfg.AdminToken) { Subject := d.username }] ∧
      exchangeCalls (pathAuthLogin b d).calls = 1) ∧
    (∀ e, b.NewFromAddress cfg.PachdAddress = .error e →
      exchangeCalls (pathAuthLogin b d).calls = 0) ∧
    exchangeCalls (pathAuthLogin b d).calls ≤ 1 := by
  have h := pathAuthLogin_path b d
  generalize pathAuthLogin b d = r at h
  cases h with
  | emptyUsername hu' => exact absurd hu' hu
  | configError e _ hc' => rw [hc] at hc'; cases hc'
  | missingAdminToken cfg' _ hc' ha' => rw [hc] at hc'; cases hc'; exact absurd ha' ha
  | missingPachdAddress cfg' _ hc' _ hp' => rw [hc] at hc'; cases hc'; exact absurd hp' hp
  | ttlError cfg' e _ hc' _ _ hs' => rw [hs] at hs'; cases hs'
  | clientError cfg' _ _ e _ hc' _ _ _ hn =>
    rw [hc] at hc'; cases hc'
    refine ⟨?_, fun _ _ => rfl, by simp [exchangeCalls, Call.isGetAuthToken]⟩
    intro client hcl
    rw [hn] at hcl; cases hcl
  | exchangeError cfg' _ _ client e _ hc' _ _ _ hn _ =>
    rw [hc] at hc'; cases hc'
    refine ⟨?_, ?_, by simp [exchangeCalls, Call.isGetAuthToken]⟩
    · intro client' hcl
      rw [hn] at hcl; cases hcl
      exact ⟨rfl, rfl⟩
    · intro e' he
      rw [hn] at he; cases he
  | issued cfg' _ _ client _ _ hc' _ _ _ hn _ =>
    rw [hc] at hc'; cases hc'
    refine ⟨?_, ?_, by simp [exchangeCalls, Call.isGetAuthToken]⟩
    · intro client' hcl
      rw [hn] at hcl; cases hcl
      exact ⟨rfl, rfl⟩
    · intro e' he
      rw [hn] at he; cases he

/-- Witness of the amended C3: the request of `alice` against an upstream that
rejects the exchange still sees exactly one `GetAuthToken` call. -/
theorem valid_request_exchange_calls_witness :
    aliceRequest.username ≠ "" ∧
    rejectingBackend.Config = .ok goodConfig ∧
    goodConfig.AdminToken ≠ "" ∧ goodConfig.PachdAddress ≠ "" ∧
    rejectingBackend.SanitizeTTLStr (ttlStringOf aliceRequest) (maxTTLStringOf aliceRequest)
      = .ok (45000000000, 7200000000000) ∧
    exchangeCalls (pathAuthLogin rejectingBackend aliceRequest).calls = 1 :=
  ⟨by decide, rfl, by decide, by decide, rfl,
   ((valid_request_exchange_calls rejectingBackend aliceRequest goodConfig
      45000000000 7200000000000 (by decide) rfl (by decide) (by decide) rfl).1
        { addr := "pachd:650", authToken := "" } rfl).2⟩

/-! ## The issued response -/

/-- C4: for every request on which `pathAuthLogin` returns a response `r`, the
config was read, the sanitizer accepted the defaulted strings, a client was
built and the exchange returned a token `tok`; no error is returned; and `r`
has `Auth` with `InternalData = {user_token: tok, ttl: t, max_ttl: m}` where
`t` and `m` are the request's strings with an empty one replaced by `"45s"`
and `"2h"`, `Metadata = {user_token: tok, pachd_address: config.PachdAddress}`
and `LeaseOptions = {TTL: sanitized ttl, Renewable: true}`. The token is the
exchange's `Token` string itself in both `user_token` entries. -/
theorem issued_response_shape (b : backend) (d : FieldData) (r : Response)
    (hr : (pathAuthLogin b d).resp = some r) :
    ∃ (cfg : config) (ttl maxTTL : Duration) (client : APIClient) (tok : GetAuthTokenResponse),
      b.Config = .ok cfg ∧
      b.SanitizeTTLStr (if d.ttl = "" then "45s" else d.ttl)
        (if d.max_ttl = "" then "2h" else d.max_ttl) = .ok (ttl, maxTTL) ∧
      b.NewFromAddress cfg.PachdAddress = .ok client ∧
      b.GetAuthToken (client.SetAuthToken cfg.AdminToken) { Subject := d.username } = .ok tok ∧
      (pathAuthLogin b d).err = none ∧
      r = { Auth := some
              { InternalData :=
                  [("user_token", tok.Token), ("ttl", if d.ttl = "" then "45s" else d.ttl),
                   ("max_ttl", if d.max_ttl = "" then "2h" else d.max_ttl)],
                Metadata := [("user_token", tok.Token), ("pachd_address", cfg.PachdAddress)],
                LeaseOptions := { TTL := ttl, Renewable := true } } } ∧
      (∀ a, r.Auth = some a →
        mapGet a.InternalData "user_token" = some tok.Token ∧
        mapGet a.Metadata "user_token" = some tok.Token) := by
  have h := pathAuthLogin_path b d
  generalize pathAuthLogin b d = res at h hr
  cases h with
  | issued cfg ttl maxTTL client tok _ hc _ _ hs hn hg =>
    rw [ttlStringOf_eq, maxTTLStringOf_eq] at hs
    refine ⟨cfg, ttl, maxTTL, client, tok, hc, hs, hn, hg, rfl, ?_, ?_⟩
    · simp only [Option.some.injEq] at hr
      rw [← hr, ttlStringOf_eq, maxTTLStringOf_eq]
    · intro a ha
      simp only [Option.some.injEq] at hr
      rw [← hr] at ha
      simp only [Option.some.injEq] at ha
      rw [← ha]
      exact ⟨rfl, rfl⟩
  | _ => cases hr

/-- Witness of C4, scenario A: username `alice`, empty `ttl` and `max_ttl`,
upstream token `"tok-123"` give `user_token` `"tok-123"`, `ttl` `"45s"`,
`max_ttl` `"2h"` and a renewable lease. -/
theorem issued_response_shape_witness :
    (pathAuthLogin stubBackend aliceRequest).resp = some aliceResponse ∧
    ∃ (cfg : config) (ttl maxTTL : Duration) (client : APIClient) (tok : GetAuthTokenResponse),
      stubBackend.Config = .ok cfg ∧
      stubBackend.SanitizeTTLStr (if aliceRequest.ttl = "" then "45s" else aliceRequest.ttl)
        (if aliceRequest.max_ttl = "" then "2h" else aliceRequest.max_ttl) = .ok (ttl, maxTTL) ∧
      stubBackend.NewFromAddress cfg.PachdAddress = .ok client ∧
      stubBackend.GetAuthToken (client.SetAuthToken cfg.AdminToken)
        { Subject := aliceRequest.username } = .ok tok ∧
      (pathAuthLogin stubBackend aliceRequest).err = none ∧
      aliceResponse =
          { Auth := some
              { InternalData :=
                  [("user_token", tok.Token),
                   ("ttl", if aliceRequest.ttl = "" then "45s" else aliceRequest.ttl),
                   ("max_ttl", if aliceRequest.max_ttl = "" then "2h" else aliceRequest.max_ttl)],
                Metadata := [("user_token", tok.Token), ("pachd_address", cfg.PachdAddress)],
                LeaseOptions := { TTL := ttl, Renewable := true } } } ∧
      (∀ a, aliceResponse.Auth = some a →
        mapGet a.InternalData "user_token" = some tok.Token ∧
        mapGet a.Metadata "user_token" = some tok.Token) :=
  ⟨by decide, issued_response_shape stubBackend aliceRequest aliceResponse (by decide)⟩

/-! ## The lease and the sanitized maxTTL -/

/-- C5 fails as stated: the response does not carry the sanitized maxTTL.
No reading of the whole response recovers it: the request of `alice` against
the stub backend (maxTTL two hours) and against the same backend with the
sanitizer's maxTTL replaced by one hour yields the same response. No reading
of the lease options recovers it for one fixed backend either: the requests
of `alice` with `max_ttl` empty and `"1h"` get the same lease options while
the sanitizer returned two hours and one hour. -/
theorem lease_does_not_carry_maxTTL :
    (¬ ∃ carried : Response → Duration,
        ∀ (b : backend) (d : FieldData) (r : Response) (ttl maxTTL : Duration),
          (pathAuthLogin b d).resp = some r →
          b.SanitizeTTLStr (ttlStringOf d) (maxTTLStringOf d) = .ok (ttl, maxTTL) →
          carried r = maxTTL) ∧
    (¬ ∃ carried : LeaseOptions → Duration,
        ∀ (d : FieldData) (r : Response) (a : Auth) (ttl maxTTL : Duration),
          (pathAuthLogin twoCeilingBackend d).resp = some r → r.Auth = some a →
          twoCeilingBackend.SanitizeTTLStr (ttlStringOf d) (maxTTLStringOf d)
            = .ok (ttl, maxTTL) →
          carried a.LeaseOptions = maxTTL) := by
  constructor
  · rintro ⟨carried, h⟩
    have h1 := h stubBackend aliceRequest aliceResponse 45000000000 7200000000000
      (by decide) rfl
    have h2 := h (stubBackend.mapMaxTTL (fun _ => 3600000000000)) aliceRequest aliceResponse
      45000000000 3600000000000 (by decide) rfl
    rw [h1] at h2
    exact absurd h2 (by decide)
  · rintro ⟨carried, h⟩
    have h1 := h aliceRequest aliceResponse
      { InternalData := [("user_token", "tok-123"), ("ttl", "45s"), ("max_ttl", "2h")],
        Metadata := [("user_token", "tok-123"), ("pachd_address", "pachd:650")],
        LeaseOptions := { TTL := 45000000000, Renewable := true } }
      45000000000 7200000000000 (by decide) rfl rfl
    have h2 := h aliceOneHourRequest
      { Auth := some
          { InternalData := [("user_token", "tok-123"), ("ttl", "45s"), ("max_ttl", "1h")],
            Metadata := [("user_token", "tok-123"), ("pachd_address", "pachd:650")],
            LeaseOptions := { TTL := 45000000000, Renewable := true } } }
      { InternalData := [("user_token", "tok-123"), ("ttl", "45s"), ("max_ttl", "1h")],
        Metadata := [("user_token", "tok-123"), ("pachd_address", "pachd:650")],
        LeaseOptions := { TTL := 45000000000, Renewable := true } }
      45000000000 3600000000000 (by decide) rfl rfl
    simp only at h1 h2
    rw [h1] at h2
    exact absurd h2 (by decide)

/-- The exchange does not consult the TTL sanitizer. -/
theorem generateUserCredentials_mapMaxTTL (b : backend) (f : Duration → Duration)
    (pachdAddress adminToken username : String) (ttl : Duration) :
    generateUserCredentials (b.mapMaxTTL f) pachdAddress adminToken username ttl
      = generateUserCredentials b pachdAddress adminToken username ttl := rfl

/-- The sanitized maxTTL is discarded: replacing it changes nothing in the
result of `pathAuthLogin`, neither the response, nor the error, nor the calls. -/
theorem pathAuthLogin_mapMaxTTL (b : backend) (f : Duration → Duration) (d : FieldData) :
    pathAuthLogin (b.mapMaxTTL f) d = pathAuthLogin b d := by
  unfold pathAuthLogin
  simp only [generateUserCredentials_mapMaxTTL]
  simp only [backend.mapMaxTTL]
  cases b.Config with
  | error e => rfl
  | ok cfg =>
    cases hs : b.SanitizeTTLStr (ttlStringOf d) (maxTTLStringOf d) with
    | error e => simp [Except.map]
    | ok p => simp [Except.map]

/-- C5 as amended: for every successful issuance, the lease options of the
response are exactly the sanitized ttl returned by the TTL sanitizer and
`Renewable = true`; the sanitized maxTTL is discarded, so that the response
is the same whatever maxTTL the sanitizer returned. -/
theorem lease_carries_sanitized_ttl (b : backend) (d : FieldData) (r : Response)
    (ttl maxTTL : Duration)
    (hr : (pathAuthLogin b d).resp = some r)
    (hs : b.SanitizeTTLStr (ttlStringOf d) (maxTTLStringOf d) = .ok (ttl, maxTTL)) :
    (∃ a, r.Auth = some a ∧ a.LeaseOptions = { TTL := ttl, Renewable := true }) ∧
    (∀ f : Duration → Duration,
      (b.mapMaxTTL f).SanitizeTTLStr (ttlStringOf d) (maxTTLStringOf d) = .ok (ttl, f maxTTL) ∧
      (pathAuthLogin (b.mapMaxTTL f) d).resp = some r) := by
  refine ⟨?_, fun f => ⟨by simp [backend.mapMaxTTL, hs, Except.map], ?_⟩⟩
  · have h := pathAuthLogin_path b d
    generalize pathAuthLogin b d = res at h hr
    cases h with
    | issued cfg ttl' maxTTL' client tok _ hc _ _ hs' hn hg =>
      rw [hs] at hs'
      cases hs'
      simp only [Option.some.injEq] at hr
      exact ⟨_, by rw [← hr], rfl⟩
    | _ => cases hr
  · rw [pathAuthLogin_mapMaxTTL, hr]

/-- Witness of the amended C5 at scenario A. -/
theorem lease_carries_sanitized_ttl_witness :
    (pathAuthLogin stubBackend aliceRequest).resp = some aliceResponse ∧
    stubBackend.SanitizeTTLStr (ttlStringOf aliceRequest) (maxTTLStringOf aliceRequest)
      = .ok (45000000000, 7200000000000) ∧
    (∃ a, aliceResponse.Auth = some a ∧
      a.LeaseOptions = { TTL := 45000000000, Renewable := true }) ∧
    (∀ f : Duration → Duration,
      (stubBackend.mapMaxTTL f).SanitizeTTLStr (ttlStringOf aliceRequest)
        (maxTTLStringOf aliceRequest) = .ok (45000000000, f 7200000000000) ∧
      (pathAuthLogin (stubBackend.mapMaxTTL f) aliceRequest).resp = some aliceResponse) :=
  ⟨by decide, rfl,
   lease_carries_sanitized_ttl stubBackend aliceRequest aliceResponse 45000000000 7200000000000
     (by decide) rfl⟩

/-! ## Order of the checks -/

/-- C6: the checks run in the order username, config completeness, TTL. For
every backend and request: an empty username yields `ErrInvalidRequest`
without the config or the sanitizer being consulted; a non-empty username
with a config missing the admin token or the pachd address yields the
misconfiguration error without the sanitizer being consulted; and the
sanitizer is called, so that its error can be returned, only when the
username and both config fields are non-empty, in which case an error of the
sanitizer is what `pathAuthLogin` returns. -/
theorem checks_run_in_order (b : backend) (d : FieldData) :
    (d.username = "" →
      (pathAuthLogin b d).resp = none ∧
      (pathAuthLogin b d).err = some GoError.ErrInvalidRequest ∧
      (pathAuthLogin b d).calls = []) ∧
    (∀ cfg, d.username ≠ "" → b.Config = .ok cfg →
      cfg.AdminToken = "" ∨ cfg.PachdAddress = "" →
      (pathAuthLogin b d).resp = none ∧
      (pathAuthLogin b d).err =
        some (if cfg.AdminToken = "" then GoError.New "plugin is missing admin_token"
              else GoError.New "plugin is missing pachd_address") ∧
      (pathAuthLogin b d).calls = [Call.Config]) ∧
    (∀ t m, Call.SanitizeTTLStr t m ∈ (pathAuthLogin b d).calls →
      d.username ≠ "" ∧
      ∃ cfg, b.Config = .ok cfg ∧ cfg.AdminToken ≠ "" ∧ cfg.PachdAddress ≠ "") ∧
    (∀ cfg e, d.username ≠ "" → b.Config = .ok cfg → cfg.AdminToken ≠ "" →
      cfg.PachdAddress ≠ "" →
      b.SanitizeTTLStr (ttlStringOf d) (maxTTLStringOf d) = .error e →
      (pathAuthLogin b d).resp = none ∧ (pathAuthLogin b d).err = some e) := by
  have h := pathAuthLogin_path b d
  generalize pathAuthLogin b d = r at h
  cases h with
  | emptyUsername hu =>
    refine ⟨fun _ => ⟨rfl, rfl, rfl⟩, fun _ hu' => absurd hu hu', ?_, fun _ _ hu' => absurd hu hu'⟩
    intro t m hmem
    simp at hmem
  | configError e hu hc =>
    refine ⟨fun hu' => absurd hu' hu, ?_, ?_, ?_⟩
    · intro cfg _ hc'
      rw [hc] at hc'; cases hc'
    · intro t m hmem
      simp at hmem
    · intro cfg e' _ hc'
      rw [hc] at hc'; cases hc'
  | missingAdminToken cfg hu hc ha =>
    refine ⟨fun hu' => absurd hu' hu, ?_, ?_, ?_⟩
    · intro cfg' _ hc' _
      rw [hc] at hc'; cases hc'
      exact ⟨rfl, by simp [ha], rfl⟩
    · intro t m hmem
      simp at hmem
    · intro cfg' e' _ hc' ha'
      rw [hc] at hc'; cases hc'
      exact absurd ha ha'
  | missingPachdAddress cfg hu hc ha hp =>
    refine ⟨fun hu' => absurd hu' hu, ?_, ?_, ?_⟩
    · intro cfg' _ hc' _
      rw [hc] at hc'; cases hc'
      exact ⟨rfl, by simp [ha], rfl⟩
    · intro t m hmem
      simp at hmem
    · intro cfg' e' _ hc' _ hp'
      rw [hc] at hc'; cases hc'
      exact absurd hp hp'
  | ttlError cfg e hu hc ha hp hs =>
    refine ⟨fun hu' => absurd hu' hu, ?_, fun _ _ _ => ⟨hu, cfg, hc, ha, hp⟩, ?_⟩
    · intro cfg' _ hc' hm
      rw [hc] at hc'; cases hc'
      rcases hm with h | h
      · exact absurd h ha
      · exact absurd h hp
    · intro cfg' e' _ _ _ _ hs'
      rw [hs] at hs'; cases hs'
      exact ⟨rfl, rfl⟩
  | clientError cfg ttl maxTTL e hu hc ha hp hs hn =>
    refine ⟨fun hu' => absurd hu' hu, ?_, fun _ _ _ => ⟨hu, cfg, hc, ha, hp⟩, ?_⟩
    · intro cfg' _ hc' hm
      rw [hc] at hc'; cases hc'
      rcases hm with h | h
      · exact absurd h ha
      · exact absurd h hp
    · intro cfg' e' _ _ _ _ hs'
      rw [hs] at hs'; cases hs'
  | exchangeError cfg ttl maxTTL client e hu hc ha hp hs hn hg =>
    refine ⟨fun hu' => absurd hu' hu, ?_, fun _ _ _ => ⟨hu, cfg, hc, ha, hp⟩, ?_⟩
    · intro cfg' _ hc' hm
      rw [hc] at hc'; cases hc'
      rcases hm with h | h
      · exact absurd h ha
      · exact absurd h hp
    · intro cfg' e' _ _ _ _ hs'
      rw [hs] at hs'; cases hs'
  | issued cfg ttl maxTTL client tok hu hc ha hp hs hn hg =>
    refine ⟨fun hu' => absurd hu' hu, ?_, fun _ _ _ => ⟨hu, cfg, hc, ha, hp⟩, ?_⟩
    · intro cfg' _ hc' hm
      rw [hc] at hc'; cases hc'
      rcases hm with h | h
      · exact absurd h ha
      · exact absurd h hp
    · intro cfg' e' _ _ _ _ hs'
      rw [hs] at hs'; cases hs'

/-- Witness of C6 on a backend whose config is incomplete and whose sanitizer
rejects everything: the empty username is reported first, and for `alice` the
missing admin token is reported, not the TTL strings. -/
theorem checks_run_in_order_witness :
    ((pathAuthLogin brokenBackend anonymousRequest).resp = none ∧
      (pathAuthLogin brokenBackend anonymousRequest).err = some GoError.ErrInvalidRequest ∧
      (pathAuthLogin brokenBackend anonymousRequest).calls = []) ∧
    ((pathAuthLogin brokenBackend aliceBadTTLRequest).resp = none ∧
      (pathAuthLogin brokenBackend aliceBadTTLRequest).err
        = some (GoError.New "plugin is missing admin_token") ∧
      (pathAuthLogin brokenBackend aliceBadTTLRequest).calls = [Call.Config]) :=
  ⟨(checks_run_in_order brokenBackend anonymousRequest).1 rfl,
   (checks_run_in_order brokenBackend aliceBadTTLRequest).2.1
     { AdminToken := "", PachdAddress := "" } (by decide) rfl (Or.inl rfl)⟩

/-! ## The strings given to the TTL sanitizer -/

/-- C7: every `SanitizeTTLStr` call that `pathAuthLogin` makes is on the pair
`(t, m)` where `t` is the request's `ttl`, or `"45s"` when that is empty, and
`m` is the request's `max_ttl`, or `"2h"` when that is empty; each default
depends on its own field only and a non-empty string is passed unchanged; and
every request that passes the username and config checks makes exactly that
one call. -/
theorem sanitizer_gets_defaulted_strings (b : backend) (d : FieldData) :
    (∀ t m, Call.SanitizeTTLStr t m ∈ (pathAuthLogin b d).calls →
      t = (if d.ttl = "" then "45s" else d.ttl) ∧
      m = (if d.max_ttl = "" then "2h" else d.max_ttl) ∧
      (d.ttl ≠ "" → t = d.ttl) ∧ (d.ttl = "" → t = "45s") ∧
      (d.max_ttl ≠ "" → m = d.max_ttl) ∧ (d.max_ttl = "" → m = "2h")) ∧
    (∀ cfg, d.username ≠ "" → b.Config = .ok cfg → cfg.AdminToken ≠ "" →
      cfg.PachdAddress ≠ "" →
      sanitizeCalls (pathAuthLogin b d).calls
        = [Call.SanitizeTTLStr (if d.ttl = "" then "45s" else d.ttl)
            (if d.max_ttl = "" then "2h" else d.max_ttl)]) := by
  have hargs : ∀ t m, t = ttlStringOf d → m = maxTTLStringOf d →
      t = (if d.ttl = "" then "45s" else d.ttl) ∧
      m = (if d.max_ttl = "" then "2h" else d.max_ttl) ∧
      (d.ttl ≠ "" → t = d.ttl) ∧ (d.ttl = "" → t = "45s") ∧
      (d.max_ttl ≠ "" → m = d.max_ttl) ∧ (d.max_ttl = "" → m = "2h") := by
    intro t m ht hm
    rw [ttlStringOf_eq] at ht
    rw [maxTTLStringOf_eq] at hm
    refine ⟨ht, hm, ?_, ?_, ?_, ?_⟩
    · intro h; rw [ht, if_neg h]
    · intro h; rw [ht, if_pos h]
    · intro h; rw [hm, if_neg h]
    · intro h; rw [hm, if_pos h]
  have h := pathAuthLogin_path b d
  generalize pathAuthLogin b d = r at h
  cases h with
  | emptyUsername hu =>
    exact ⟨fun t m hmem => by simp at hmem, fun _ hu' => absurd hu hu'⟩
  | configError e hu hc =>
    refine ⟨fun t m hmem => by simp at hmem, ?_⟩
    intro cfg _ hc'
    rw [hc] at hc'; cases hc'
  | missingAdminToken cfg hu hc ha =>
    refine ⟨fun t m hmem => by simp at hmem, ?_⟩
    intro cfg' _ hc' ha'
    rw [hc] at hc'; cases hc'
    exact absurd ha ha'
  | missingPachdAddress cfg hu hc ha hp =>
    refine ⟨fun t m hmem => by simp at hmem, ?_⟩
    intro cfg' _ hc' _ hp'
    rw [hc] at hc'; cases hc'
    exact absurd hp hp'
  | ttlError cfg e hu hc ha hp hs =>
    refine ⟨?_, ?_⟩
    · intro t m hmem
      simp at hmem
      exact hargs t m hmem.1 hmem.2
    · intro _ _ _ _ _
      rw [← ttlStringOf_eq, ← maxTTLStringOf_eq]
      rfl
  | clientError cfg ttl maxTTL e hu hc ha hp hs hn =>
    refine ⟨?_, ?_⟩
    · intro t m hmem
      simp at hmem
      exact hargs t m hmem.1 hmem.2
    · intro _ _ _ _ _
      rw [← ttlStringOf_eq, ← maxTTLStringOf_eq]
      rfl
  | exchangeError cfg ttl maxTTL client e hu hc ha hp hs hn hg =>
    refine ⟨?_, ?_⟩
    · intro t m hmem
      simp at hmem
      exact hargs t m hmem.1 hmem.2
    · intro _ _ _ _ _
      rw [← ttlStringOf_eq, ← maxTTLStringOf_eq]
      rfl
  | issued cfg ttl maxTTL client tok hu hc ha hp hs hn hg =>
    refine ⟨?_, ?_⟩
    · intro t m hmem
      simp at hmem
      exact hargs t m hmem.1 hmem.2
    · intro _ _ _ _ _
      rw [← ttlStringOf_eq, ← maxTTLStringOf_eq]
      rfl

/-- Witness of C7: a request with `ttl` `"10s"` and no `max_ttl` has the
sanitizer called on `("10s", "2h")`: the one default is applied, the given
string is passed as it is. -/
theorem sanitizer_gets_defaulted_strings_witness :
    sanitizeCalls (pathAuthLogin stubBackend aliceTenSecondsRequest).calls
      = [Call.SanitizeTTLStr "10s" "2h"] :=
  (sanitizer_gets_defaulted_strings stubBackend aliceTenSecondsRequest).2 goodConfig
    (by decide) rfl (by decide) (by decide)

/-! ## Failure of the exchange -/

/-- C8: for every valid request (non-empty username, complete config, the
sanitizer succeeds), if the exchange fails with error `e`, because
`pclient.NewFromAddress` fails with `e` or because `GetAuthToken` returns `e`,
then `pathAuthLogin` returns no response and the error `e` itself; the failed
call is the last collaborator call of the run, so nothing is retried: no
`GetAuthToken` call when the client could not be built, exactly one otherwise. -/
theorem exchange_failure_is_returned (b : backend) (d : FieldData) (cfg : config)
    (ttl maxTTL : Duration) (e : GoError)
    (hu : d.username ≠ "") (hc : b.Config = .ok cfg)
    (ha : cfg.AdminToken ≠ "") (hp : cfg.PachdAddress ≠ "")
    (hs : b.SanitizeTTLStr (ttlStringOf d) (maxTTLStringOf d) = .ok (ttl, maxTTL))
    (hf : b.NewFromAddress cfg.PachdAddress = .error e ∨
          ∃ client, b.NewFromAddress cfg.PachdAddress = .ok client ∧
            b.GetAuthToken (client.SetAuthToken cfg.AdminToken) { Subject := d.username }
              = .error e) :
    (pathAuthLogin b d).resp = none ∧
    (pathAuthLogin b d).err = some e ∧
    exchangeCalls (pathAuthLogin b d).calls ≤ 1 ∧
    (b.NewFromAddress cfg.PachdAddress = .error e →
      (pathAuthLogin b d).calls.getLast? = some (Call.NewFromAddress cfg.PachdAddress) ∧
      exchangeCalls (pathAuthLogin b d).calls = 0) ∧
    (∀ client, b.NewFromAddress cfg.PachdAddress = .ok client →
      (pathAuthLogin b d).calls.getLast?
        = some (Call.GetAuthToken (client.SetAuthToken cfg.AdminToken)
            { Subject := d.username }) ∧
      exchangeCalls (pathAuthLogin b d).calls = 1) := by
  have h := pathAuthLogin_path b d
  generalize pathAuthLogin b d = r at h
  cases h with
  | emptyUsername hu' => exact absurd hu' hu
  | configError e' _ hc' => rw [hc] at hc'; cases hc'
  | missingAdminToken cfg' _ hc' ha' => rw [hc] at hc'; cases hc'; exact absurd ha' ha
  | missingPachdAddress cfg' _ hc' _ hp' => rw [hc] at hc'; cases hc'; exact absurd hp' hp
  | ttlError cfg' e' _ hc' _ _ hs' => rw [hs] at hs'; cases hs'
  | clientError cfg' _ _ e' _ hc' _ _ _ hn =>
    rw [hc] at hc'; cases hc'
    have he : e' = e := by
      rcases hf with h | ⟨client, h, _⟩
      · rw [hn] at h; cases h; rfl
      · rw [hn] at h; cases h
    subst he
    refine ⟨rfl, rfl, by simp [exchangeCalls, Call.isGetAuthToken], fun _ => ⟨rfl, rfl⟩, ?_⟩
    intro client hcl
    rw [hn] at hcl; cases hcl
  | exchangeError cfg' _ _ client e' _ hc' _ _ _ hn hg =>
    rw [hc] at hc'; cases hc'
    have he : e' = e := by
      rcases hf with h | ⟨client', h, hg'⟩
      · rw [hn] at h; cases h
      · rw [hn] at h; cases h
        rw [hg] at hg'; cases hg'; rfl
    subst he
    refine ⟨rfl, rfl, by simp [exchangeCalls, Call.isGetAuthToken], ?_, ?_⟩
    · intro hcl
      rw [hn] at hcl; cases hcl
    · intro client' hcl
      rw [hn] at hcl; cases hcl
      exact ⟨rfl, rfl⟩
  | issued cfg' _ _ client tok _ hc' _ _ _ hn hg =>
    rw [hc] at hc'; cases hc'
    rcases hf with h | ⟨client', h, hg'⟩
    · rw [hn] at h; cases h
    · rw [hn] at h; cases h
      rw [hg] at hg'; cases hg'

/-- Witness of C8, scenario D: the upstream rejects the exchange for `alice`
and its error is what the caller receives, after a single `GetAuthToken` call. -/
theorem exchange_failure_is_returned_witness :
    aliceRequest.username ≠ "" ∧
    rejectingBackend.Config = .ok goodConfig ∧
    (pathAuthLogin rejectingBackend aliceRequest).resp = none ∧
    (pathAuthLogin rejectingBackend aliceRequest).err
      = some (GoError.Foreign "permission denied") ∧
    exchangeCalls (pathAuthLogin rejectingBackend aliceRequest).calls ≤ 1 :=
  have h := exchange_failure_is_returned rejectingBackend aliceRequest goodConfig
    45000000000 7200000000000 (GoError.Foreign "permission denied")
    (by decide) rfl (by decide) (by decide) rfl
    (Or.inr ⟨{ addr := "pachd:650", authToken := "" }, rfl, rfl⟩)
  ⟨by decide, rfl, h.1, h.2.1, h.2.2.1⟩

/-! ## The TTL bounds -/

/-- C9 fails as stated: `pathAuthLogin` issues credentials whose sanitized
pair breaks `0 < ttl ≤ maxTTL`. With a sanitizer that returns minus five
seconds for the `ttl` `"-5s"`, the request of `alice` is answered with a
lease TTL of minus five seconds, not strictly positive; with one that returns
a `maxTTL` of zero for the `max_ttl` `"0"`, it is answered with a lease TTL of
45 seconds, greater than the sanitized maxTTL. -/
theorem issued_lease_ttl_out_of_bounds :
    (signedBackend.SanitizeTTLStr (ttlStringOf aliceNegativeTTLRequest)
        (maxTTLStringOf aliceNegativeTTLRequest) = .ok (-5000000000, 7200000000000) ∧
      (pathAuthLogin signedBackend aliceNegativeTTLRequest).err = none ∧
      (pathAuthLogin signedBackend aliceNegativeTTLRequest).resp =
        some
          { Auth := some
              { InternalData := [("user_token", "tok-123"), ("ttl", "-5s"), ("max_ttl", "2h")],
                Metadata := [("user_token", "tok-123"), ("pachd_address", "pachd:650")],
                LeaseOptions := { TTL := -5000000000, Renewable := true } } } ∧
      ¬ ((0 : Duration) < -5000000000)) ∧
    (signedBackend.SanitizeTTLStr (ttlStringOf aliceZeroMaxTTLRequest)
        (maxTTLStringOf aliceZeroMaxTTLRequest) = .ok (45000000000, 0) ∧
      (pathAuthLogin signedBackend aliceZeroMaxTTLRequest).err = none ∧
      (pathAuthLogin signedBackend aliceZeroMaxTTLRequest).resp =
        some
          { Auth := some
              { InternalData := [("user_token", "tok-123"), ("ttl", "45s"), ("max_ttl", "0")],
                Metadata := [("user_token", "tok-123"), ("pachd_address", "pachd:650")],
                LeaseOptions := { TTL := 45000000000, Renewable := true } } } ∧
      ¬ ((45000000000 : Duration) ≤ 0)) := by
  refine ⟨⟨rfl, by decide, by decide, by decide⟩, ⟨rfl, by decide, by decide, by decide⟩⟩

/-- C9 as amended: for every request on which `pathAuthLogin` issues a
credential, the lease TTL placed in the response is the `ttl` of the pair
`(ttl, maxTTL)` that `SanitizeTTLStr` returned for the defaulted strings,
unchanged; `pathAuthLogin` checks no bound itself, so the lease TTL is
strictly positive exactly when that `ttl` is, and no greater than the
sanitized maxTTL exactly when that `ttl` is. -/
theorem issued_lease_ttl_is_sanitized_ttl (b : backend) (d : FieldData) (r : Response)
    (hr : (pathAuthLogin b d).resp = some r) :
    ∃ (a : Auth) (ttl maxTTL : Duration),
      b.SanitizeTTLStr (ttlStringOf d) (maxTTLStringOf d) = .ok (ttl, maxTTL) ∧
      r.Auth = some a ∧ a.LeaseOptions.TTL = ttl ∧
      (0 < a.LeaseOptions.TTL ↔ 0 < ttl) ∧
      (a.LeaseOptions.TTL ≤ maxTTL ↔ ttl ≤ maxTTL) := by
  have h := pathAuthLogin_path b d
  generalize pathAuthLogin b d = res at h hr
  cases h with
  | issued cfg ttl maxTTL client tok _ hc _ _ hs hn hg =>
    simp only [Option.some.injEq] at hr
    exact ⟨_, ttl, maxTTL, hs, by rw [← hr], rfl, Iff.rfl, Iff.rfl⟩
  | _ => cases hr

/-- Witness of the amended C9 at scenario A: the lease TTL is the 45 seconds
the sanitizer returned. -/
theorem issued_lease_ttl_is_sanitized_ttl_witness :
    (pathAuthLogin stubBackend aliceRequest).resp = some aliceResponse ∧
    ∃ (a : Auth) (ttl maxTTL : Duration),
      stubBackend.SanitizeTTLStr (ttlStringOf aliceRequest) (maxTTLStringOf aliceRequest)
        = .ok (ttl, maxTTL) ∧
      aliceResponse.Auth = some a ∧ a.LeaseOptions.TTL = ttl ∧
      (0 < a.LeaseOptions.TTL ↔ 0 < ttl) ∧
      (a.LeaseOptions.TTL ≤ maxTTL ↔ ttl ≤ maxTTL) :=
  ⟨by decide,
   issued_lease_ttl_is_sanitized_ttl stubBackend aliceRequest aliceResponse (by decide)⟩

/-! ## At most one exchange -/

/-- C10: on every run of `pathAuthLogin`, for every request, config and
collaborator behaviour, `GetAuthToken` is called at most once; and it is
called zero times whenever the request is rejected by validation: the
username is empty, the config read fails, the admin token or the pachd
address is missing, or `SanitizeTTLStr` rejects the defaulted strings. -/
theorem at_most_one_exchange (b : backend) (d : FieldData) :
    exchangeCalls (pathAuthLogin b d).calls ≤ 1 ∧
    (d.username = "" ∨
      (∃ e, b.Config = .error e) ∨
      (∃ cfg, b.Config = .ok cfg ∧ (cfg.AdminToken = "" ∨ cfg.PachdAddress = "")) ∨
      (∃ e, b.SanitizeTTLStr (ttlStringOf d) (maxTTLStringOf d) = .error e) →
      exchangeCalls (pathAuthLogin b d).calls = 0) := by
  have h := pathAuthLogin_path b d
  generalize pathAuthLogin b d = r at h
  cases h with
  | emptyUsername hu => exact ⟨by simp [exchangeCalls], fun _ => rfl⟩
  | configError e hu hc => exact ⟨by simp [exchangeCalls, Call.isGetAuthToken], fun _ => rfl⟩
  | missingAdminToken cfg hu hc ha =>
    exact ⟨by simp [exchangeCalls, Call.isGetAuthToken], fun _ => rfl⟩
  | missingPachdAddress cfg hu hc ha hp =>
    exact ⟨by simp [exchangeCalls, Call.isGetAuthToken], fun _ => rfl⟩
  | ttlError cfg e hu hc ha hp hs =>
    exact ⟨by simp [exchangeCalls, Call.isGetAuthToken], fun _ => rfl⟩
  | clientError cfg ttl maxTTL e hu hc ha hp hs hn =>
    exact ⟨by simp [exchangeCalls, Call.isGetAuthToken], fun _ => rfl⟩
  | exchangeError cfg ttl maxTTL client e hu hc ha hp hs hn hg =>
    refine ⟨by simp [exchangeCalls, Call.isGetAuthToken], ?_⟩
    rintro (h | ⟨e', h⟩ | ⟨cfg', h, hm⟩ | ⟨e', h⟩)
    · exact absurd h hu
    · rw [hc] at h; cases h
    · rw [hc] at h; cases h
      rcases hm with h | h
      · exact absurd h ha
      · exact absurd h hp
    · rw [hs] at h; cases h
  | issued cfg ttl maxTTL client tok hu hc ha hp hs hn hg =>
    refine ⟨by simp [exchangeCalls, Call.isGetAuthToken], ?_⟩
    rintro (h | ⟨e', h⟩ | ⟨cfg', h, hm⟩ | ⟨e', h⟩)
    · exact absurd h hu
    · rw [hc] at h; cases h
    · rw [hc] at h; cases h
      rcases hm with h | h
      · exact absurd h ha
      · exact absurd h hp
    · rw [hs] at h; cases h

/-- Witness of C10: a request of `alice` whose TTL strings the sanitizer
rejects ends without any exchange call. -/
theorem at_most_one_exchange_witness :
    (∃ e, stubBackend.SanitizeTTLStr (ttlStringOf aliceBadTTLRequest)
        (maxTTLStringOf aliceBadTTLRequest) = .error e) ∧
    exchangeCalls (pathAuthLogin stubBackend aliceBadTTLRequest).calls = 0 :=
  ⟨⟨GoError.Foreign "invalid ttl", rfl⟩,
   (at_most_one_exchange stubBackend aliceBadTTLRequest).2
     (Or.inr (Or.inr (Or.inr ⟨GoError.Foreign "invalid ttl", rfl⟩)))⟩

/-! ## Rejection by the TTL sanitizer -/

/-- C11: for every request with a non-empty username and a config whose admin
token and pachd address are both non-empty, if `SanitizeTTLStr` rejects the
defaulted `ttl` and `max_ttl` strings with error `e`, then `pathAuthLogin`
returns no response and the error `e`, and issues no credential: the
sanitizer call is the last call of the run and no client is built and no
`GetAuthToken` call is made. -/
theorem sanitizer_error_is_returned (b : backend) (d : FieldData) (cfg : config) (e : GoError)
    (hu : d.username ≠ "") (hc : b.Config = .ok cfg)
    (ha : cfg.AdminToken ≠ "") (hp : cfg.PachdAddress ≠ "")
    (hs : b.SanitizeTTLStr (if d.ttl = "" then "45s" else d.ttl)
            (if d.max_ttl = "" then "2h" else d.max_ttl) = .error e) :
    (pathAuthLogin b d).resp = none ∧
    (pathAuthLogin b d).err = some e ∧
    (pathAuthLogin b d).calls
      = [Call.Config, Call.SanitizeTTLStr (if d.ttl = "" then "45s" else d.ttl)
          (if d.max_ttl = "" then "2h" else d.max_ttl)] ∧
    exchangeCalls (pathAuthLogin b d).calls = 0 := by
  rw [← ttlStringOf_eq, ← maxTTLStringOf_eq] at hs ⊢
  have h := pathAuthLogin_path b d
  generalize pathAuthLogin b d = r at h
  cases h with
  | emptyUsername hu' => exact absurd hu' hu
  | configError e' _ hc' => rw [hc] at hc'; cases hc'
  | missingAdminToken cfg' _ hc' ha' => rw [hc] at hc'; cases hc'; exact absurd ha' ha
  | missingPachdAddress cfg' _ hc' _ hp' => rw [hc] at hc'; cases hc'; exact absurd hp' hp
  | ttlError cfg' e' _ hc' _ _ hs' =>
    rw [hs] at hs'; cases hs'
    exact ⟨rfl, rfl, rfl, rfl⟩
  | clientError cfg' _ _ e' _ hc' _ _ hs' _ => rw [hs] at hs'; cases hs'
  | exchangeError cfg' _ _ client e' _ hc' _ _ hs' _ _ => rw [hs] at hs'; cases hs'
  | issued cfg' _ _ client _ _ hc' _ _ hs' _ _ => rw [hs] at hs'; cases hs'

/-- Witness of C11: the request of `alice` with strings that are no durations
gets the sanitizer's error. -/
theorem sanitizer_error_is_returned_witness :
    aliceBadTTLRequest.username ≠ "" ∧
    stubBackend.Config = .ok goodConfig ∧
    (pathAuthLogin stubBackend aliceBadTTLRequest).resp = none ∧
    (pathAuthLogin stubBackend aliceBadTTLRequest).err = some (GoError.Foreign "invalid ttl") ∧
    (pathAuthLogin stubBackend aliceBadTTLRequest).calls
      = [Call.Config, Call.SanitizeTTLStr "soon" "later"] ∧
    exchangeCalls (pathAuthLogin stubBackend aliceBadTTLRequest).calls = 0 :=
  ⟨by decide, rfl,
   sanitizer_error_is_returned stubBackend aliceBadTTLRequest goodConfig
     (GoError.Foreign "invalid ttl") (by decide) rfl (by decide) (by decide) rfl⟩

/-! ## Failure of the config read -/

/-- C14: for every request with a non-empty username, if reading the backend
config fails with error `e`, then `pathAuthLogin` returns no response and the
error `e` unchanged; the config read is the only collaborator call of the
run, so no config field is inspected and neither `SanitizeTTLStr` nor the
exchange is called; this holds whatever the `ttl` and `max_ttl` strings are. -/
theorem config_error_is_returned (b : backend) (d : FieldData) (e : GoError)
    (hu : d.username ≠ "") (hc : b.Config = .error e) :
    (pathAuthLogin b d).resp = none ∧
    (pathAuthLogin b d).err = some e ∧
    (pathAuthLogin b d).calls = [Call.Config] ∧
    sanitizeCalls (pathAuthLogin b d).calls = [] ∧
    exchangeCalls (pathAuthLogin b d).calls = 0 := by
  have h := pathAuthLogin_path b d
  generalize pathAuthLogin b d = r at h
  cases h with
  | emptyUsername hu' => exact absurd hu' hu
  | configError e' _ hc' =>
    rw [hc] at hc'; cases hc'
    exact ⟨rfl, rfl, rfl, rfl, rfl⟩
  | missingAdminToken cfg' _ hc' _ => rw [hc] at hc'; cases hc'
  | missingPachdAddress cfg' _ hc' _ _ => rw [hc] at hc'; cases hc'
  | ttlError cfg' e' _ hc' _ _ _ => rw [hc] at hc'; cases hc'
  | clientError cfg' _ _ e' _ hc' _ _ _ _ => rw [hc] at hc'; cases hc'
  | exchangeError cfg' _ _ client e' _ hc' _ _ _ _ _ => rw [hc] at hc'; cases hc'
  | issued cfg' _ _ client _ _ hc' _ _ _ _ _ => rw [hc] at hc'; cases hc'

/-- Witness of C14: the request of `alice` with strings that are no durations,
against a storage that cannot be read. -/
theorem config_error_is_returned_witness :
    aliceBadTTLRequest.username ≠ "" ∧
    unreadableConfigBackend.Config = .error (GoError.Foreign "storage unavailable") ∧
    (pathAuthLogin unreadableConfigBackend aliceBadTTLRequest).resp = none ∧
    (pathAuthLogin unreadableConfigBackend aliceBadTTLRequest).err
      = some (GoError.Foreign "storage unavailable") ∧
    (pathAuthLogin unreadableConfigBackend aliceBadTTLRequest).calls = [Call.Config] ∧
    sanitizeCalls (pathAuthLogin unreadableConfigBackend aliceBadTTLRequest).calls = [] ∧
    exchangeCalls (pathAuthLogin unreadableConfigBackend aliceBadTTLRequest).calls = 0 :=
  ⟨by decide, rfl,
   config_error_is_returned unreadableConfigBackend aliceBadTTLRequest
     (GoError.Foreign "storage unavailable") (by decide) rfl⟩

/-! ## The admin token and the output -/

/-- C12: the admin token does not reach the output of `pathAuthLogin`. For
every backend, request and pachd address, two runs whose configs differ only
in the (non-empty) admin token, and whose upstream exchange gives the same
result under either token, return the same response and the same error; and
apart from the token set on the client of the exchange, the two runs make the
same collaborator calls, so the token is used for the exchange call only. -/
theorem admin_token_does_not_reach_output (b : backend) (d : FieldData)
    (addr tokA tokB : String) (hA : tokA ≠ "") (hB : tokB ≠ "")
    (hx : ∀ client, b.NewFromAddress addr = .ok client →
      b.GetAuthToken (client.SetAuthToken tokA) { Subject := d.username }
        = b.GetAuthToken (client.SetAuthToken tokB) { Subject := d.username }) :
    (pathAuthLogin (b.withConfig { AdminToken := tokA, PachdAddress := addr }) d).resp
      = (pathAuthLogin (b.withConfig { AdminToken := tokB, PachdAddress := addr }) d).resp ∧
    (pathAuthLogin (b.withConfig { AdminToken := tokA, PachdAddress := addr }) d).err
      = (pathAuthLogin (b.withConfig { AdminToken := tokB, PachdAddress := addr }) d).err ∧
    (pathAuthLogin (b.withConfig { AdminToken := tokA, PachdAddress := addr }) d).calls.map
        Call.eraseAuthToken
      = (pathAuthLogin (b.withConfig { AdminToken := tokB, PachdAddress := addr }) d).calls.map
        Call.eraseAuthToken := by
  have hA' : ¬ (tokA.length == 0) = true := fun h => hA ((length_beq_zero _).mp h)
  have hB' : ¬ (tokB.length == 0) = true := fun h => hB ((length_beq_zero _).mp h)
  unfold pathAuthLogin
  by_cases hu : (d.username.length == 0) = true
  · simp only [hu, if_true, and_self]
  · simp only [hu, if_false, backend.withConfig, hA', hB']
    by_cases hp : (addr.length == 0) = true
    · simp only [hp, if_true, and_self]
    · simp only [hp, if_false]
      cases hs : b.SanitizeTTLStr (ttlStringOf d) (maxTTLStringOf d) with
      | error e => simp only [and_self]
      | ok p =>
        obtain ⟨ttl, maxTTL⟩ := p
        simp only [generateUserCredentials]
        cases hn : b.NewFromAddress addr with
        | error e => simp only [and_self]
        | ok client =>
          have hx' := hx client hn
          simp only
          rw [hx']
          cases hg : b.GetAuthToken (client.SetAuthToken tokB) { Subject := d.username } with
          | error e =>
            simp [Call.eraseAuthToken, APIClient.SetAuthToken]
          | ok tok =>
            simp [Call.eraseAuthToken, APIClient.SetAuthToken]

/-! ## Replication state flags -/

/-- Setting bits `g` leaves the bits selected by a mask `f` disjoint from `g`. -/
theorem and_or_of_disjoint (r g f : Nat) (h : g &&& f = 0) : (r ||| g) &&& f = r &&& f := by
  apply Nat.eq_of_testBit_eq
  intro i
  have hi : (g.testBit i && f.testBit i) = false := by
    rw [← Nat.testBit_and, h, Nat.zero_testBit]
  rw [Nat.testBit_and, Nat.testBit_or, Nat.testBit_and]
  cases hr : r.testBit i <;> cases hg : g.testBit i <;> cases hf : f.testBit i <;> simp_all

/-- The all-ones mask has exactly the bits below 32. -/
theorem uint32Max_testBit (i : Nat) : uint32Max.testBit i = decide (i < 32) := by
  have h : uint32Max = 2 ^ 32 - 1 := by decide
  rw [h, Nat.testBit_two_pow_sub_one]

/-- A `uint32` has no bit at position 32 or above. -/
theorem testBit_of_lt_two_pow_32 (f i : Nat) (hf : f < 2 ^ 32) (hi : 32 ≤ i) :
    f.testBit i = false :=
  Nat.testBit_lt_two_pow (lt_of_lt_of_le hf (Nat.pow_le_pow_right (by decide) hi))

/-- Clearing bits `g` leaves the bits selected by a `uint32` mask `f` disjoint
from `g`. -/
theorem and_xor_mask_of_disjoint (r g f : Nat) (h : g &&& f = 0) (hf : f < 2 ^ 32) :
    (r &&& (g ^^^ uint32Max)) &&& f = r &&& f := by
  apply Nat.eq_of_testBit_eq
  intro i
  have hi : (g.testBit i && f.testBit i) = false := by
    rw [← Nat.testBit_and, h, Nat.zero_testBit]
  rw [Nat.testBit_and, Nat.testBit_and, Nat.testBit_xor, Nat.testBit_and, uint32Max_testBit]
  by_cases h32 : i < 32
  · cases hr : r.testBit i <;> cases hg : g.testBit i <;> cases hf : f.testBit i <;> simp_all
  · rw [testBit_of_lt_two_pow_32 f i hf (Nat.le_of_not_lt h32)]
    simp

/-- `AddState` of bits `g` does not change `HasState` of a disjoint flag. -/
theorem hasState_addState_of_disjoint (r g f : ReplicationState) (h : g &&& f = 0) :
    ReplicationState.HasState (ReplicationState.AddState r g) f
      = ReplicationState.HasState r f := by
  unfold ReplicationState.HasState ReplicationState.AddState
  rw [and_or_of_disjoint r g f h]

/-- `ClearState` of bits `g` does not change `HasState` of a disjoint flag. -/
theorem hasState_clearState_of_disjoint (r g f : ReplicationState) (h : g &&& f = 0)
    (hf : f < 2 ^ 32) :
    ReplicationState.HasState (ReplicationState.ClearState r g) f
      = ReplicationState.HasState r f := by
  unfold ReplicationState.HasState ReplicationState.ClearState
  rw [and_xor_mask_of_disjoint r g f h hf]

/-- C15: for every replication state `r`, `GetDRString r` is `"bootstrapping"`
if `r` has the `ReplicationDRBootstrapping` bit, otherwise `"primary"` if it
has `ReplicationDRPrimary`, otherwise `"secondary"` if it has
`ReplicationDRSecondary`, otherwise `"disabled"` if it has
`ReplicationDRDisabled`, otherwise `"unknown"`; the result is unchanged by
`AddState` or `ClearState` of any performance flag or legacy `Old` value; the
nine constants declared after `ReplicationUnknown = 0` are the pairwise
distinct single bits 32, 64, 128, 256, 512, 1024, 2048, 4096 and 8192; and
the same holds for `GetPerformanceString` with the performance flags and the
DR flags exchanged. -/
theorem replication_strings (r : ReplicationState) :
    (ReplicationState.GetDRString r =
      if ReplicationState.HasState r ReplicationDRBootstrapping then "bootstrapping"
      else if ReplicationState.HasState r ReplicationDRPrimary then "primary"
      else if ReplicationState.HasState r ReplicationDRSecondary then "secondary"
      else if ReplicationState.HasState r ReplicationDRDisabled then "disabled"
      else "unknown") ∧
    (∀ g, g ∈ performanceFlags ++ legacyValues →
      ReplicationState.GetDRString (ReplicationState.AddState r g)
        = ReplicationState.GetDRString r ∧
      ReplicationState.GetDRString (ReplicationState.ClearState r g)
        = ReplicationState.GetDRString r) ∧
    (ReplicationUnknown = 0 ∧
      flagsAfterUnknown = [32, 64, 128, 256, 512, 1024, 2048, 4096, 8192] ∧
      flagsAfterUnknown = [2 ^ 5, 2 ^ 6, 2 ^ 7, 2 ^ 8, 2 ^ 9, 2 ^ 10, 2 ^ 11, 2 ^ 12, 2 ^ 13] ∧
      flagsAfterUnknown.Nodup) ∧
    (ReplicationState.GetPerformanceString r =
      if ReplicationState.HasState r ReplicationPerformanceBootstrapping then "bootstrapping"
      else if ReplicationState.HasState r ReplicationPerformancePrimary then "primary"
      else if ReplicationState.HasState r ReplicationPerformanceSecondary then "secondary"
      else if ReplicationState.HasState r ReplicationPerformanceDisabled then "disabled"
      else "unknown") ∧
    (∀ g, g ∈ drFlags ++ legacyValues →
      ReplicationState.GetPerformanceString (ReplicationState.AddState r g)
        = ReplicationState.GetPerformanceString r ∧
      ReplicationState.GetPerformanceString (ReplicationState.ClearState r g)
        = ReplicationState.GetPerformanceString r) := by
  refine ⟨rfl, ?_, ⟨rfl, by decide, by decide, by decide⟩, rfl, ?_⟩
  · intro g hg
    simp only [performanceFlags, legacyValues, List.cons_append, List.nil_append,
      List.mem_cons, List.mem_singleton, List.not_mem_nil, or_false] at hg
    rcases hg with rfl | rfl | rfl | rfl | rfl | rfl | rfl | rfl <;>
    · constructor
      · unfold ReplicationState.GetDRString
        rw [hasState_addState_of_disjoint _ _ _ (by decide),
          hasState_addState_of_disjoint _ _ _ (by decide),
          hasState_addState_of_disjoint _ _ _ (by decide),
          hasState_addState_of_disjoint _ _ _ (by decide)]
      · unfold ReplicationState.GetDRString
        rw [hasState_clearState_of_disjoint _ _ _ (by decide) (by decide),
          hasState_clearState_of_disjoint _ _ _ (by decide) (by decide),
          hasState_clearState_of_disjoint _ _ _ (by decide) (by decide),
          hasState_clearState_of_disjoint _ _ _ (by decide) (by decide)]
  · intro g hg
    simp only [drFlags, legacyValues, List.cons_append, List.nil_append,
      List.mem_cons, List.mem_singleton, List.not_mem_nil, or_false] at hg
    rcases hg with rfl | rfl | rfl | rfl | rfl | rfl | rfl | rfl <;>
    · constructor
      · unfold ReplicationState.GetPerformanceString
        rw [hasState_addState_of_disjoint _ _ _ (by decide),
          hasState_addState_of_disjoint _ _ _ (by decide),
          hasState_addState_of_disjoint _ _ _ (by decide),
          hasState_addState_of_disjoint _ _ _ (by decide)]
      · unfold ReplicationState.GetPerformanceString
        rw [hasState_clearState_of_disjoint _ _ _ (by decide) (by decide),
          hasState_clearState_of_disjoint _ _ _ (by decide) (by decide),
          hasState_clearState_of_disjoint _ _ _ (by decide) (by decide),
          hasState_clearState_of_disjoint _ _ _ (by decide) (by decide)]

/-- Witness of C15: a DR primary that is a performance secondary reads
`"primary"` as its DR string and keeps it when the performance bootstrapping
flag is set or the performance secondary flag is cleared. -/
theorem replication_strings_witness :
    ReplicationState.GetDRString (ReplicationDRPrimary ||| ReplicationPerformanceSecondary)
      = "primary" ∧
    ReplicationState.GetDRString
      (ReplicationState.AddState (ReplicationDRPrimary ||| ReplicationPerformanceSecondary)
        ReplicationPerformanceBootstrapping)
      = ReplicationState.GetDRString (ReplicationDRPrimary ||| ReplicationPerformanceSecondary) ∧
    ReplicationState.GetDRString
      (ReplicationState.ClearState (ReplicationDRPrimary ||| ReplicationPerformanceSecondary)
        ReplicationPerformanceSecondary)
      = ReplicationState.GetDRString (ReplicationDRPrimary ||| ReplicationPerformanceSecondary) :=
  ⟨by decide,
   ((replication_strings (ReplicationDRPrimary ||| ReplicationPerformanceSecondary)).2.1
      ReplicationPerformanceBootstrapping (by decide)).1,
   ((replication_strings (ReplicationDRPrimary ||| ReplicationPerformanceSecondary)).2.1
      ReplicationPerformanceSecondary (by decide)).2⟩

/-- C16: for every replication state `r` and every flag `f` (both `uint32`):
after `AddState(f)`, `HasState(f)` is true whenever `f` is non-zero; after
`ClearState(f)`, `HasState(f)` is false; neither operation changes
`HasState(g)` for a flag `g` that shares no bit with `f`; and both results
are again `uint32` values. -/
theorem add_and_clear_state (r f : ReplicationState) (hr : r < 2 ^ 32) (hf : f < 2 ^ 32) :
    (f ≠ 0 → ReplicationState.HasState (ReplicationState.AddState r f) f = true) ∧
    ReplicationState.HasState (ReplicationState.ClearState r f) f = false ∧
    (∀ g : ReplicationState, g < 2 ^ 32 → g &&& f = 0 →
      ReplicationState.HasState (ReplicationState.AddState r f) g
        = ReplicationState.HasState r g ∧
      ReplicationState.HasState (ReplicationState.ClearState r f) g
        = ReplicationState.HasState r g) ∧
    ReplicationState.AddState r f < 2 ^ 32 ∧
    ReplicationState.ClearState r f < 2 ^ 32 := by
  refine ⟨?_, ?_, ?_, Nat.or_lt_two_pow hr hf, ?_⟩
  · intro hne
    have h : (r ||| f) &&& f = f := by
      apply Nat.eq_of_testBit_eq
      intro i
      rw [Nat.testBit_and, Nat.testBit_or]
      cases r.testBit i <;> cases f.testBit i <;> rfl
    unfold ReplicationState.HasState ReplicationState.AddState
    rw [h]
    simpa using hne
  · have h : (r &&& (f ^^^ uint32Max)) &&& f = 0 := by
      apply Nat.eq_of_testBit_eq
      intro i
      rw [Nat.testBit_and, Nat.testBit_and, Nat.testBit_xor, uint32Max_testBit,
        Nat.zero_testBit]
      by_cases h32 : i < 32
      · cases r.testBit i <;> cases f.testBit i <;> simp [h32]
      · rw [testBit_of_lt_two_pow_32 f i hf (Nat.le_of_not_lt h32)]
        simp
    unfold ReplicationState.HasState ReplicationState.ClearState
    rw [h]
    rfl
  · intro g hg hd
    have hd' : f &&& g = 0 := by rw [Nat.and_comm]; exact hd
    exact ⟨hasState_addState_of_disjoint r f g hd',
      hasState_clearState_of_disjoint r f g hd' hg⟩
  · unfold ReplicationState.ClearState
    rw [Nat.and_comm]
    exact Nat.and_lt_two_pow _ hr

/-- Witness of C16: adding, then clearing, the DR secondary flag on a
performance primary. -/
theorem add_and_clear_state_witness :
    ReplicationPerformancePrimary < 2 ^ 32 ∧ ReplicationDRSecondary < 2 ^ 32 ∧
    ReplicationState.HasState
      (ReplicationState.AddState ReplicationPerformancePrimary ReplicationDRSecondary)
      ReplicationDRSecondary = true ∧
    ReplicationState.HasState
      (ReplicationState.ClearState ReplicationPerformancePrimary ReplicationDRSecondary)
      ReplicationDRSecondary = false :=
  have h := add_and_clear_state ReplicationPerformancePrimary ReplicationDRSecondary
    (by decide) (by decide)
  ⟨by decide, by decide, h.1 (by decide), h.2.1⟩

/-- Witness of C12: the request of `alice` under two different admin tokens. -/
theorem admin_token_does_not_reach_output_witness :
    "admin-token" ≠ "" ∧ "rotated-token" ≠ "" ∧
    (pathAuthLogin
        (stubBackend.withConfig { AdminToken := "admin-token", PachdAddress := "pachd:650" })
        aliceRequest).resp
      = (pathAuthLogin
        (stubBackend.withConfig { AdminToken := "rotated-token", PachdAddress := "pachd:650" })
        aliceRequest).resp ∧
    (pathAuthLogin
        (stubBackend.withConfig { AdminToken := "admin-token", PachdAddress := "pachd:650" })
        aliceRequest).err
      = (pathAuthLogin
        (stubBackend.withConfig { AdminToken := "rotated-token", PachdAddress := "pachd:650" })
        aliceRequest).err :=
  have h := admin_token_does_not_reach_output stubBackend aliceRequest "pachd:650"
    "admin-token" "rotated-token" (by decide) (by decide) (fun _ _ => rfl)
  ⟨by decide, by decide, h.1, h.2.1⟩

/-! ## Operation logging -/

/-- The last piece of `strings.Split(s, ".")` exists, holds no dot, and is
either the whole of `s` or what follows the last dot of `s`. -/
theorem splitDots_last (s : List Char) :
    ∃ last, (splitDots s).getLast? = some last ∧ '.' ∉ last ∧
      ((splitDots s = [last] ∧ s = last) ∨
       (∃ pre, 2 ≤ (splitDots s).length ∧ s = pre ++ '.' :: last)) := by
  induction s with
  | nil => exact ⟨[], rfl, by simp, Or.inl ⟨rfl, rfl⟩⟩
  | cons c cs ih =>
    obtain ⟨last, hl, hd, hs⟩ := ih
    by_cases hc : c = '.'
    · subst hc
      refine ⟨last, ?_, hd, Or.inr ?_⟩
      · simp only [splitDots, if_true]
        cases hsp : splitDots cs with
        | nil => rw [hsp] at hl; cases hl
        | cons p ps => rw [hsp] at hl; simpa [List.getLast?_cons_cons] using hl
      · rcases hs with ⟨h1, h2⟩ | ⟨pre, h1, h2⟩
        · refine ⟨[], ?_, ?_⟩
          · simp [splitDots, h1]
          · simp [← h2]
        · refine ⟨'.' :: pre, ?_, ?_⟩
          · simp only [splitDots, if_true, List.length_cons]; omega
          · simp [h2]
    · rcases hs with ⟨h1, h2⟩ | ⟨pre, h1, h2⟩
      · refine ⟨c :: last, ?_, ?_, Or.inl ⟨?_, ?_⟩⟩
        · simp [splitDots, hc, h1]
        · simp only [List.mem_cons, not_or]
          exact ⟨fun h => hc h.symm, hd⟩
        · simp [splitDots, hc, h1]
        · rw [h2]
      · cases hsp : splitDots cs with
        | nil => rw [hsp] at hl; cases hl
        | cons p ps =>
          rw [hsp] at hl h1
          cases ps with
          | nil => simp at h1
          | cons q qs =>
            refine ⟨last, ?_, hd, Or.inr ⟨c :: pre, ?_, ?_⟩⟩
            · simp only [splitDots, hc, if_false, hsp]
              simpa [List.getLast?_cons_cons] using hl
            · simp [splitDots, hc, hsp]
            · simp [h2]

/-- C13: `Log` always reaches logrus, and attaches to the entry of the logger
exactly the five fields `method`, `request`, `response`, `error` and
`duration`: `method` is the operation name, the part of the caller's function
name after its last dot (the whole name when it has no dot), and `request`,
`response`, `err` and `duration` are passed as they are; the entry is emitted
with `Error(err)`, at error level, when `err` is non-nil, and with `Info()`,
at info level, when `err` is nil. -/
theorem log_fields_and_level {V : Type} (l : logger V) (callerName : String)
    (request response : V) (err : Option GoError) (duration : Duration) :
    ∃ (eff : LogEffect V) (method : List Char),
      logger.Log l callerName request response err duration = some eff ∧
      '.' ∉ method ∧
      (callerName.data = method ∨ ∃ pre, callerName.data = pre ++ '.' :: method) ∧
      eff.receiver = l ∧
      eff.fields =
        [("method", LogValue.string (String.mk method)),
         ("request", LogValue.interface request),
         ("response", LogValue.interface response),
         ("error", LogValue.error err),
         ("duration", LogValue.duration duration)] ∧
      eff.fields.map Prod.fst = ["method", "request", "response", "error", "duration"] ∧
      (∀ e, err = some e →
        eff.call = EntryCall.Error e ∧ eff.call.Level = Level.ErrorLevel) ∧
      (err = none → eff.call = EntryCall.Info ∧ eff.call.Level = Level.InfoLevel) := by
  obtain ⟨last, hl, hd, hs⟩ := splitDots_last callerName.data
  have hname : callerName.data = last ∨ ∃ pre, callerName.data = pre ++ '.' :: last := by
    rcases hs with ⟨_, h⟩ | ⟨pre, _, h⟩
    · exact Or.inl h
    · exact Or.inr ⟨pre, h⟩
  cases err with
  | none =>
    refine ⟨{ receiver := l,
              fields :=
                  [("method", LogValue.string (String.mk last)),
                   ("request", LogValue.interface request),
                   ("response", LogValue.interface response),
                   ("error", LogValue.error none),
                   ("duration", LogValue.duration duration)],
              call := EntryCall.Info },
      last, ?_, hd, hname, rfl, rfl, rfl, ?_, fun _ => ⟨rfl, rfl⟩⟩
    · simp only [logger.Log, hl]
    · intro e he
      cases he
  | some e =>
    refine ⟨{ receiver := l,
              fields :=
                  [("method", LogValue.string (String.mk last)),
                   ("request", LogValue.interface request),
                   ("response", LogValue.interface response),
                   ("error", LogValue.error (some e)),
                   ("duration", LogValue.duration duration)],
              call := EntryCall.Error e },
      last, ?_, hd, hname, rfl, rfl, rfl, ?_, ?_⟩
    · simp only [logger.Log, hl]
    · intro e' he
      cases he
      exact ⟨rfl, rfl⟩
    · intro he
      cases he

/-- Witness of C13: a failed `CreateRepo` call is logged under the method name
`CreateRepo` with the five fields, at error level. -/
theorem log_fields_and_level_witness :
    (logger.Log (NewLogger String "pfs") createRepoName "request" "response"
        (some (GoError.Foreign "repo exists")) 1500000).map
      (fun eff => (eff.fields, eff.call, eff.call.Level))
      = some
        ([("method", LogValue.string "CreateRepo"),
          ("request", LogValue.interface "request"),
          ("response", LogValue.interface "response"),
          ("error", LogValue.error (some (GoError.Foreign "repo exists"))),
          ("duration", LogValue.duration 1500000)],
         EntryCall.Error (GoError.Foreign "repo exists"), Level.ErrorLevel) ∧
    ∃ (eff : LogEffect String) (method : List Char),
      logger.Log (NewLogger String "pfs") createRepoName "request" "response"
        (some (GoError.Foreign "repo exists")) 1500000 = some eff ∧
      '.' ∉ method ∧
      (createRepoName.data = method ∨ ∃ pre, createRepoName.data = pre ++ '.' :: method) ∧
      eff.receiver = NewLogger String "pfs" ∧
      eff.fields =
        [("method", LogValue.string (String.mk method)),
         ("request", LogValue.interface "request"),
         ("response", LogValue.interface "response"),
         ("error", LogValue.error (some (GoError.Foreign "repo exists"))),
         ("duration", LogValue.duration 1500000)] ∧
      eff.fields.map Prod.fst = ["method", "request", "response", "error", "duration"] ∧
      (∀ e, some (GoError.Foreign "repo exists") = some e →
        eff.call = EntryCall.Error e ∧ eff.call.Level = Level.ErrorLevel) ∧
      (some (GoError.Foreign "repo exists") = none →
        eff.call = EntryCall.Info ∧ eff.call.Level = Level.InfoLevel) :=
  ⟨by rfl,
   log_fields_and_level (NewLogger String "pfs") createRepoName "request" "response"
     (some (GoError.Foreign "repo exists")) 1500000⟩

end Pachyderm
